import Mathlib

/-!
# NNCNNLabeler `GraphBuilder` (src/NNCNNLabeler/model/ComputionGraph.h)

A shallow embedding of the sentence graph builder: the slot collections it
owns, `createNodes`, `clear`, `initial` and `forward`, followed by the
properties proved about them.

The node kinds (`LookupNode`, `DropoutNode`, `UniNode`, the three pooling
nodes, `ConcatNode`, `LinearNode`, `WindowBuilder`), `getPNodes`, `Graph`,
`Feature`, `ModelParams` and `HyperParams` come from the N3LDG library and the
neighbouring headers; the header under study only calls them.  What a node
computes is a parameter of the development (`Engine`); the bookkeeping of a
node (which parameter set it points to, its dimension, its last output) is
modelled from the specification's collaborator contracts.

Conventions.
* `std::vector<T>` is `List T`; `v[i]` is a checked access whose failure is the
  outcome `undefined` (C++ `operator[]` performs no check).
* `int` values are taken without overflow: the argument of `createNodes` and
  the hyper-parameters are integers, sentence lengths and slot indices are
  natural numbers (a sentence has fewer than 2^31 tokens).
* A pointer to a `Graph` is an index into `World.heap`; an unset pointer is
  `none`.
* A node call `node.forward(_pcg, inputs)` computes the node's output at once
  from the outputs of the nodes it is pointed at.
-/

namespace N3LDG

/-! ## Outcomes of a call -/

/-- How a call can end.  `done a`: it returns with result `a`.  `failure`: it
reports an error to its caller (a thrown exception or an error return).
`undefined`: it executes an operation whose behaviour C++ leaves undefined (an
unchecked out-of-range `operator[]`, a dereference of an unset or dangling
pointer, a forward pass through a node that was never set up).  From that
point on the language fixes nothing: the run may crash, or return with
contents of any kind; the embedding follows it no further.  `undefined`
therefore does not say that the call fails to return.  The only `failure` in
`GraphBuilder` is the `std::length_error` that `vector::resize` throws out of
`createNodes` for a negative count. -/
inductive Outcome (α : Type) where
  | done (a : α)
  | failure
  | undefined
  deriving DecidableEq

/-- Sequencing of calls: the first call that does not return ends the run. -/
def Outcome.bind {α β : Type} : Outcome α → (α → Outcome β) → Outcome β
  | .done a, f => f a
  | .failure, _ => .failure
  | .undefined, _ => .undefined

/-- Counted loop `for (int i = 0; i < n; i++) body(i)`. -/
def forRange {σ : Type} (body : Nat → σ → Outcome σ) : Nat → σ → Outcome σ
  | 0, s => .done s
  | n + 1, s => (forRange body n s).bind (body n)

/-- The call `std::vector::resize(n)`: keeps the first `n` elements and pads
with default-constructed ones. -/
def resize {α : Type} (dflt : α) (n : Nat) (xs : List α) : List α :=
  xs.take n ++ List.replicate (n - xs.length) dflt

/-- Reads the outputs behind a list of node pointers; `none` when one of the
nodes has no output yet. -/
def outputs {V : Type} : List (Option V) → Option (List V)
  | [] => some []
  | none :: _ => none
  | some v :: xs => (outputs xs).map (v :: ·)

/-! ## Collaborators -/

/-- Token identifiers. -/
abbrev Token := Nat

/-- Modelled from the spec: `Feature` (declared outside this header), "one
sentence's ordered token-id sequence". -/
structure Feature where
  m_words : List Token
  deriving DecidableEq

/-- Modelled from the spec: `HyperParams` (declared outside this header), the
four sizes `initial` reads. -/
structure HyperParams where
  wordDim : Int
  wordContext : Int
  hiddenSize : Int
  labelSize : Int
  deriving DecidableEq

/-- Modelled from the spec: `ModelParams` (declared in ModelParams.h, not part
of this header): the embedding table and the two weight matrices. -/
structure ModelParams (L U : Type) where
  words : L
  hidden_linear : U
  olayer_linear : U
  deriving DecidableEq

/-- Modelled from the spec: the execution context `Graph` (N3LDG), "owns a
mutable train/eval flag"; `rng` is the random source that training-mode dropout
draws from. -/
structure Graph (R : Type) where
  train : Bool
  rng : R
  deriving DecidableEq

/-- What the node kinds compute (N3LDG; the header only calls them).  `V` is
the type of node outputs, `L` of embedding tables, `U` of weight matrices, `R`
of random-source states. -/
structure Engine (V L U R : Type) where
  lookup : L → Int → Token → V
  dropoutEval : Rat → Int → V → V
  dropoutTrain : Rat → Int → R → V → V × R
  window : Int → Int → List V → Nat → V
  uni : U → Int → V → V
  avgPool : Int → List V → V
  maxPool : Int → List V → V
  minPool : Int → List V → V
  concat : Int → V → V → V → V
  linear : U → Int → V → V

/-- Modelled from the spec: `LookupNode` (N3LDG), `forward(context, token_id) →
vector` with the shared embedding table as parameter. -/
structure LookupNode (V L : Type) where
  param : Option L := none
  dim : Option Int := none
  val : Option V := none
  deriving DecidableEq

/-- Modelled from the spec: `DropoutNode` (N3LDG), "gated by context flag +
configured rate". -/
structure DropoutNode (V : Type) where
  dim : Option Int := none
  drop_value : Option Rat := none
  val : Option V := none
  deriving DecidableEq

/-- Modelled from the spec: `UniNode` (N3LDG), the per-position hidden
projection, `setParam(weights)`, `init(out_dim)`, `forward(context, input)`. -/
structure UniNode (V U : Type) where
  param : Option U := none
  dim : Option Int := none
  val : Option V := none
  deriving DecidableEq

/-- Modelled from the spec: `LinearNode` (N3LDG), the output layer. -/
structure LinearNode (V U : Type) where
  param : Option U := none
  dim : Option Int := none
  val : Option V := none
  deriving DecidableEq

/-- Modelled from the spec: the pool reducers `AvgPoolNode`, `MaxPoolNode`,
`MinPoolNode` (N3LDG): `setParam(capacity)`, `init(dim)`, `forward(context,
ordered inputs) → vector`. -/
structure PoolNode (V : Type) where
  size : Option Nat := none
  dim : Option Int := none
  val : Option V := none
  deriving DecidableEq

/-- Modelled from the spec: `ConcatNode` (N3LDG), `init(total_dim)`,
`forward(context, a, b, c) → vector`. -/
structure ConcatNode (V : Type) where
  dim : Option Int := none
  val : Option V := none
  deriving DecidableEq

/-- One output slot of the window encoder. -/
structure WindowSlot (V : Type) where
  val : Option V := none
  deriving DecidableEq

/-- Modelled from the spec: `WindowBuilder` (N3LDG), "stateful component owning
slots proportional to capacity": `resize(capacity)`, `init(dim, width)`,
`forward(context, ordered inputs) → ordered outputs (same count)`. -/
structure WindowBuilder (V : Type) where
  _outputs : List (WindowSlot V) := []
  _inDim : Option Int := none
  _context : Option Int := none
  deriving DecidableEq

/-- Modelled from the spec: `LookupNode::setParam` (N3LDG) points the slot at
the shared embedding table. -/
def LookupNode.setParam {V L : Type} (p : L) (nd : LookupNode V L) : LookupNode V L :=
  { nd with param := some p }

/-- Modelled from the spec: `LookupNode::init` (N3LDG) fixes the output
dimension. -/
def LookupNode.init {V L : Type} (d : Int) (nd : LookupNode V L) : LookupNode V L :=
  { nd with dim := some d }

/-- Modelled from the spec: `LookupNode::forward(context, token_id) → vector`
(N3LDG).  A slot without table or dimension cannot run. -/
def LookupNode.forward {V L U R : Type} (eng : Engine V L U R) (g : Graph R)
    (nd : LookupNode V L) (tok : Token) : Outcome (LookupNode V L × Graph R) :=
  match nd.param, nd.dim with
  | some p, some d => .done ({ nd with val := some (eng.lookup p d tok) }, g)
  | _, _ => .undefined

/-- Modelled from the spec: `DropoutNode::init` (N3LDG) fixes the dimension. -/
def DropoutNode.init {V : Type} (d : Int) (nd : DropoutNode V) : DropoutNode V :=
  { nd with dim := some d }

/-- Modelled from the spec: `DropoutNode::setParam` (N3LDG) sets the drop
rate. -/
def DropoutNode.setParam {V : Type} (p : Rat) (nd : DropoutNode V) : DropoutNode V :=
  { nd with drop_value := some p }

/-- Modelled from the spec: `DropoutNode::forward(context, input)` (N3LDG),
"gated by context flag + configured rate".  Dropout reads the train flag of
the context it is handed; only the training branch draws from the random
source. -/
def DropoutNode.forward {V L U R : Type} (eng : Engine V L U R) (g : Graph R)
    (nd : DropoutNode V) (x : Option V) : Outcome (DropoutNode V × Graph R) :=
  match nd.dim, nd.drop_value, x with
  | some d, some p, some v =>
    if g.train then
      .done ({ nd with val := some (eng.dropoutTrain p d g.rng v).1 },
             { g with rng := (eng.dropoutTrain p d g.rng v).2 })
    else
      .done ({ nd with val := some (eng.dropoutEval p d v) }, g)
  | _, _, _ => .undefined

/-- Modelled from the spec: `UniNode::setParam(weights)` (N3LDG). -/
def UniNode.setParam {V U : Type} (p : U) (nd : UniNode V U) : UniNode V U :=
  { nd with param := some p }

/-- Modelled from the spec: `UniNode::init(out_dim)` (N3LDG). -/
def UniNode.init {V U : Type} (d : Int) (nd : UniNode V U) : UniNode V U :=
  { nd with dim := some d }

/-- Modelled from the spec: `UniNode::forward(context, input) → vector`
(N3LDG); the input is the output of the node pointed to. -/
def UniNode.forward {V L U R : Type} (eng : Engine V L U R) (g : Graph R)
    (nd : UniNode V U) (x : Option V) : Outcome (UniNode V U × Graph R) :=
  match nd.param, nd.dim, x with
  | some p, some d, some v => .done ({ nd with val := some (eng.uni p d v) }, g)
  | _, _, _ => .undefined

/-- Modelled from the spec: `LinearNode::setParam(weights)` (N3LDG). -/
def LinearNode.setParam {V U : Type} (p : U) (nd : LinearNode V U) : LinearNode V U :=
  { nd with param := some p }

/-- Modelled from the spec: `LinearNode::init(out_dim)` (N3LDG). -/
def LinearNode.init {V U : Type} (d : Int) (nd : LinearNode V U) : LinearNode V U :=
  { nd with dim := some d }

/-- Modelled from the spec: `LinearNode::forward(context, input) → vector`
(N3LDG). -/
def LinearNode.forward {V L U R : Type} (eng : Engine V L U R) (g : Graph R)
    (nd : LinearNode V U) (x : Option V) : Outcome (LinearNode V U × Graph R) :=
  match nd.param, nd.dim, x with
  | some p, some d, some v => .done ({ nd with val := some (eng.linear p d v) }, g)
  | _, _, _ => .undefined

/-- Modelled from the spec: pool reducer `setParam(capacity)` (N3LDG). -/
def PoolNode.setParam {V : Type} (n : Nat) (nd : PoolNode V) : PoolNode V :=
  { nd with size := some n }

/-- Modelled from the spec: pool reducer `init(dim)` (N3LDG). -/
def PoolNode.init {V : Type} (d : Int) (nd : PoolNode V) : PoolNode V :=
  { nd with dim := some d }

/-- Modelled from the spec: pool reducer `forward(context, ordered inputs) →
vector` (N3LDG) over the outputs of the nodes it is handed; `op` is the
reduction (average, maximum or minimum).  More inputs than the size given to
`setParam` is out of range. -/
def PoolNode.forward {V R : Type} (op : Int → List V → V) (g : Graph R)
    (nd : PoolNode V) (x : List (Option V)) : Outcome (PoolNode V × Graph R) :=
  match nd.size, nd.dim, outputs x with
  | some n, some d, some vs =>
    if vs.length ≤ n then .done ({ nd with val := some (op d vs) }, g) else .undefined
  | _, _, _ => .undefined

/-- Modelled from the spec: `ConcatNode::init(total_dim)` (N3LDG). -/
def ConcatNode.init {V : Type} (d : Int) (nd : ConcatNode V) : ConcatNode V :=
  { nd with dim := some d }

/-- Modelled from the spec: `ConcatNode::forward(context, a, b, c) → vector`
(N3LDG), the three inputs in the order given. -/
def ConcatNode.forward {V L U R : Type} (eng : Engine V L U R) (g : Graph R)
    (nd : ConcatNode V) (a b c : Option V) : Outcome (ConcatNode V × Graph R) :=
  match nd.dim, a, b, c with
  | some d, some x, some y, some z => .done ({ nd with val := some (eng.concat d x y z) }, g)
  | _, _, _, _ => .undefined

/-- Modelled from the spec: `WindowBuilder::resize(capacity)` (N3LDG) resizes
the collection of output slots. -/
def WindowBuilder.resize {V : Type} (n : Nat) (wb : WindowBuilder V) : WindowBuilder V :=
  { wb with _outputs := N3LDG.resize {} n wb._outputs }

/-- Modelled from the spec: `WindowBuilder::clear` (N3LDG) drops the output
slots. -/
def WindowBuilder.clear {V : Type} (wb : WindowBuilder V) : WindowBuilder V :=
  { wb with _outputs := [] }

/-- Modelled from the spec: `WindowBuilder::init(dim, width)` (N3LDG) stores
the input dimension and the window width. -/
def WindowBuilder.init {V : Type} (inDim context : Int) (wb : WindowBuilder V) :
    WindowBuilder V :=
  { wb with _inDim := some inDim, _context := some context }

/-- Modelled from the spec: `WindowBuilder::forward(context, ordered inputs) →
ordered outputs (same count)` (N3LDG).  Output slot `i` receives the context
vector of position `i`, for every input position; the remaining slots keep
their contents.  More inputs than output slots is out of range. -/
def WindowBuilder.forward {V L U R : Type} (eng : Engine V L U R) (g : Graph R)
    (wb : WindowBuilder V) (x : List (Option V)) : Outcome (WindowBuilder V × Graph R) :=
  match wb._inDim, wb._context, outputs x with
  | some d, some c, some vs =>
    if vs.length ≤ wb._outputs.length then
      .done ({ wb with
                _outputs := (List.range vs.length).map (fun i => ⟨some (eng.window d c vs i)⟩)
                              ++ wb._outputs.drop vs.length }, g)
    else .undefined
  | _, _, _ => .undefined

/-- Modelled from the spec: `getPNodes(nodes, n)` (N3LDG) hands over "the
ordered sequence of the first" `n` slots; asking for more slots than the
collection holds is out of range. -/
def getPNodes {α : Type} (nodes : List α) (n : Nat) : Outcome (List α) :=
  if n ≤ nodes.length then .done (nodes.take n) else .undefined

/-! ## The builder -/

/-- The data members of `GraphBuilder`; the defaults are the state the empty
constructor leaves: empty collections, nodes not set up, `_pcg` unset. -/
structure GraphBuilder (V L U : Type) where
  _word_inputs : List (LookupNode V L) := []
  _dropout_nodes_after_input_nodes : List (DropoutNode V) := []
  _dropout_nodes_after_hidden_nodes : List (DropoutNode V) := []
  _word_window : WindowBuilder V := {}
  _hidden : List (UniNode V U) := []
  _avg_pooling : PoolNode V := {}
  _max_pooling : PoolNode V := {}
  _min_pooling : PoolNode V := {}
  _concat : ConcatNode V := {}
  _pcg : Option Nat := none
  _neural_output : LinearNode V U := {}
  deriving DecidableEq

/-- Source line 25. -/
def max_sentence_length : Nat := 1024

/-- Source lines 37-45 for a count that `vector::resize` accepts: the five
`resize` calls and the three `setParam` calls. -/
def GraphBuilder.resizeAll {V L U : Type} (sent_length : Nat) (b : GraphBuilder V L U) :
    GraphBuilder V L U :=
  { b with
    _word_inputs := resize {} sent_length b._word_inputs
    _word_window := b._word_window.resize sent_length
    _hidden := resize {} sent_length b._hidden
    _dropout_nodes_after_input_nodes := resize {} sent_length b._dropout_nodes_after_input_nodes
    _dropout_nodes_after_hidden_nodes := resize {} sent_length b._dropout_nodes_after_hidden_nodes
    _avg_pooling := b._avg_pooling.setParam sent_length
    _max_pooling := b._max_pooling.setParam sent_length
    _min_pooling := b._min_pooling.setParam sent_length }

/-- Source lines 36-46.  The parameter is an `int`.  A negative count reaches
`_word_inputs.resize` (line 37) converted to a size beyond `max_size`, and
`resize` throws `std::length_error` before any member is changed; the
exception leaves `createNodes`. -/
def GraphBuilder.createNodes {V L U : Type} (sent_length : Int) (b : GraphBuilder V L U) :
    Outcome (GraphBuilder V L U) :=
  if sent_length < 0 then .failure else .done (b.resizeAll sent_length.toNat)

/-- Source lines 48-52. -/
def GraphBuilder.clear {V L U : Type} (b : GraphBuilder V L U) : GraphBuilder V L U :=
  { b with
    _word_inputs := []
    _word_window := b._word_window.clear
    _hidden := [] }

/-- Body of the loop at source lines 58-63: binds `_word_inputs[idx]` and
`_hidden[idx]`. -/
def initialSlot {V L U : Type} (model : ModelParams L U) (opts : HyperParams) (idx : Nat)
    (s : List (LookupNode V L) × List (UniNode V U)) :
    Outcome (List (LookupNode V L) × List (UniNode V U)) :=
  match s.1[idx]?, s.2[idx]? with
  | some w, some h =>
    .done (s.1.set idx ((w.setParam model.words).init opts.wordDim),
           s.2.set idx ((h.setParam model.hidden_linear).init opts.hiddenSize))
  | _, _ => .undefined

/-- Source lines 55-82 (the memory pool argument only says where outputs are
stored and is left out). -/
def GraphBuilder.initial {V L U : Type} (pcg : Nat) (model : ModelParams L U)
    (opts : HyperParams) (b : GraphBuilder V L U) : Outcome (GraphBuilder V L U) :=
  (forRange (initialSlot model opts) b._word_inputs.length (b._word_inputs, b._hidden)).bind
    fun s =>
      .done
        { _pcg := some pcg
          _word_inputs := s.1
          _hidden := s.2
          _dropout_nodes_after_input_nodes :=
            b._dropout_nodes_after_input_nodes.map
              fun node => (node.init opts.wordDim).setParam (0.2 : Rat)
          _dropout_nodes_after_hidden_nodes :=
            b._dropout_nodes_after_hidden_nodes.map
              fun node => (node.init opts.hiddenSize).setParam (0.5 : Rat)
          _word_window := b._word_window.init opts.wordDim opts.wordContext
          _avg_pooling := b._avg_pooling.init opts.hiddenSize
          _max_pooling := b._max_pooling.init opts.hiddenSize
          _min_pooling := b._min_pooling.init opts.hiddenSize
          _concat := b._concat.init (opts.hiddenSize * 3)
          _neural_output := (b._neural_output.setParam model.olayer_linear).init opts.labelSize }

/-- Body of a loop `for i: slots[i].forward(_pcg, ins[i])`: both indexings are
checked, the node's `forward` runs on the context `s.2` and slot `i` is
overwritten with the node it leaves. -/
def slotStep {α β G : Type} (fwd : G → α → β → Outcome (α × G)) (ins : List β) (i : Nat)
    (s : List α × G) : Outcome (List α × G) :=
  match s.1[i]?, ins[i]? with
  | some a, some x => (fwd s.2 a x).bind fun r => .done (s.1.set i r.1, r.2)
  | _, _ => .undefined

/-- The builder together with the memory its `_pcg` points into. -/
structure World (V L U R : Type) where
  heap : List (Graph R)
  gb : GraphBuilder V L U
  deriving DecidableEq

/-- Source lines 87-122.  The `Graph` behind `_pcg` is read once, handed from
node call to node call (line 88 sets its train flag first) and stored back
when the pass returns. -/
def GraphBuilder.forward {V L U R : Type} (eng : Engine V L U R) (feature : Feature)
    (bTrain : Bool) (w : World V L U R) : Outcome (World V L U R) :=
  match w.gb._pcg with
  | none => .undefined
  | some p =>
    match w.heap[p]? with
    | none => .undefined
    | some g0 =>
      let g : Graph R := { g0 with train := bTrain }
      let words_num :=
        if feature.m_words.length > max_sentence_length then max_sentence_length
        else feature.m_words.length
      (forRange (slotStep (LookupNode.forward eng) feature.m_words) words_num
        (w.gb._word_inputs, g)).bind fun s1 =>
      (forRange (slotStep (fun g nd (x : LookupNode V L) => DropoutNode.forward eng g nd x.val)
        s1.1) words_num (w.gb._dropout_nodes_after_input_nodes, s1.2)).bind fun s2 =>
      (getPNodes s2.1 words_num).bind fun xs =>
      (w.gb._word_window.forward eng s2.2 (xs.map (·.val))).bind fun s3 =>
      (forRange (slotStep (fun g nd (x : WindowSlot V) => UniNode.forward eng g nd x.val)
        s3.1._outputs) words_num (w.gb._hidden, s3.2)).bind fun s4 =>
      (forRange (slotStep (fun g nd (x : UniNode V U) => DropoutNode.forward eng g nd x.val)
        s4.1) words_num (w.gb._dropout_nodes_after_hidden_nodes, s4.2)).bind fun s5 =>
      (getPNodes s5.1 words_num).bind fun ha =>
      (w.gb._avg_pooling.forward eng.avgPool s5.2 (ha.map (·.val))).bind fun s6 =>
      (getPNodes s5.1 words_num).bind fun hm =>
      (w.gb._max_pooling.forward eng.maxPool s6.2 (hm.map (·.val))).bind fun s7 =>
      (getPNodes s5.1 words_num).bind fun hn =>
      (w.gb._min_pooling.forward eng.minPool s7.2 (hn.map (·.val))).bind fun s8 =>
      (w.gb._concat.forward eng s8.2 s6.1.val s7.1.val s8.1.val).bind fun s9 =>
      (w.gb._neural_output.forward eng s9.2 s9.1.val).bind fun s10 =>
      .done
        { heap := w.heap.set p s10.2
          gb :=
            { w.gb with
              _word_inputs := s1.1
              _dropout_nodes_after_input_nodes := s2.1
              _word_window := s3.1
              _hidden := s4.1
              _dropout_nodes_after_hidden_nodes := s5.1
              _avg_pooling := s6.1
              _max_pooling := s7.1
              _min_pooling := s8.1
              _concat := s9.1
              _neural_output := s10.1 } }

/-! ## The forward pass as the specification describes it -/

/-- The loop of `slotStep` read as one pass over the slots and their inputs,
position by position. -/
def zipTraverse {α β G : Type} (fwd : G → α → β → Outcome (α × G)) :
    List α → List β → G → Outcome (List α × G)
  | a :: as, x :: xs, g =>
    (fwd g a x).bind fun r => (zipTraverse fwd as xs r.2).bind fun t => .done (r.1 :: t.1, t.2)
  | [], _, g => .done ([], g)
  | _ :: _, [], g => .done ([], g)

/-- Active length, step 2 of the forward orchestrator:
`len = min(|Feature|, max_sentence_length)`. -/
def specLen (feature : Feature) : Nat :=
  min feature.m_words.length max_sentence_length

/-- Dropout over a sequence in position order.  Every position sees the same
train flag; when training, each one draws from the random source left by the
previous one. -/
def dropSeq {V L U R : Type} (eng : Engine V L U R) (rate : Rat) (dim : Int) (train : Bool) :
    List V → R → List V × R
  | [], r => ([], r)
  | v :: vs, r =>
    if train then
      ((eng.dropoutTrain rate dim r v).1 ::
          (dropSeq eng rate dim train vs (eng.dropoutTrain rate dim r v).2).1,
        (dropSeq eng rate dim train vs (eng.dropoutTrain rate dim r v).2).2)
    else
      (eng.dropoutEval rate dim v :: (dropSeq eng rate dim train vs r).1,
        (dropSeq eng rate dim train vs r).2)

/-- Step 3: the embedding of each of the first `len` tokens. -/
def specLookups {V L U R : Type} (eng : Engine V L U R) (model : ModelParams L U)
    (opts : HyperParams) (feature : Feature) : List V :=
  (feature.m_words.take (specLen feature)).map (eng.lookup model.words opts.wordDim)

/-- Step 4: post-embedding dropout, rate 0.2, with the random source it
leaves. -/
def specEmbedded {V L U R : Type} (eng : Engine V L U R) (model : ModelParams L U)
    (opts : HyperParams) (feature : Feature) (train : Bool) (rng : R) : List V × R :=
  dropSeq eng (0.2 : Rat) opts.wordDim train (specLookups eng model opts feature) rng

/-- Step 5: one window call over the post-dropout embeddings. -/
def specContext {V L U R : Type} (eng : Engine V L U R) (model : ModelParams L U)
    (opts : HyperParams) (feature : Feature) (train : Bool) (rng : R) : List V :=
  (List.range (specEmbedded eng model opts feature train rng).1.length).map
    (eng.window opts.wordDim opts.wordContext (specEmbedded eng model opts feature train rng).1)

/-- Step 6: the hidden projection of each context vector. -/
def specProjected {V L U R : Type} (eng : Engine V L U R) (model : ModelParams L U)
    (opts : HyperParams) (feature : Feature) (train : Bool) (rng : R) : List V :=
  (specContext eng model opts feature train rng).map
    (eng.uni model.hidden_linear opts.hiddenSize)

/-- Step 7: post-hidden dropout, rate 0.5, continuing with the random source
left by step 4. -/
def specHidden {V L U R : Type} (eng : Engine V L U R) (model : ModelParams L U)
    (opts : HyperParams) (feature : Feature) (train : Bool) (rng : R) : List V × R :=
  dropSeq eng (0.5 : Rat) opts.hiddenSize train (specProjected eng model opts feature train rng)
    (specEmbedded eng model opts feature train rng).2

/-- Steps 8 and 9: the three reductions, concatenated in the order avg, max,
min. -/
def specPooled {V L U R : Type} (eng : Engine V L U R) (model : ModelParams L U)
    (opts : HyperParams) (feature : Feature) (train : Bool) (rng : R) : V :=
  eng.concat (opts.hiddenSize * 3)
    (eng.avgPool opts.hiddenSize (specHidden eng model opts feature train rng).1)
    (eng.maxPool opts.hiddenSize (specHidden eng model opts feature train rng).1)
    (eng.minPool opts.hiddenSize (specHidden eng model opts feature train rng).1)

/-- Step 10: the output linear slot on the concatenated vector. -/
def specScores {V L U R : Type} (eng : Engine V L U R) (model : ModelParams L U)
    (opts : HyperParams) (feature : Feature) (train : Bool) (rng : R) : V :=
  eng.linear model.olayer_linear opts.labelSize (specPooled eng model opts feature train rng)

/-- The builder a forward pass leaves behind: the first `len` slots of every
collection hold the outputs of the steps above, the slots behind them are
untouched. -/
def forwardResult {V L U R : Type} (eng : Engine V L U R) (model : ModelParams L U)
    (opts : HyperParams) (feature : Feature) (train : Bool) (rng : R)
    (b : GraphBuilder V L U) : GraphBuilder V L U :=
  { b with
    _word_inputs :=
      (specLookups eng model opts feature).map
          (fun v => ⟨some model.words, some opts.wordDim, some v⟩)
        ++ b._word_inputs.drop (specLen feature)
    _dropout_nodes_after_input_nodes :=
      (specEmbedded eng model opts feature train rng).1.map
          (fun v => ⟨some opts.wordDim, some (0.2 : Rat), some v⟩)
        ++ b._dropout_nodes_after_input_nodes.drop (specLen feature)
    _word_window :=
      { b._word_window with
        _outputs :=
          (specContext eng model opts feature train rng).map (fun v => ⟨some v⟩)
            ++ b._word_window._outputs.drop (specLen feature) }
    _hidden :=
      (specProjected eng model opts feature train rng).map
          (fun v => ⟨some model.hidden_linear, some opts.hiddenSize, some v⟩)
        ++ b._hidden.drop (specLen feature)
    _dropout_nodes_after_hidden_nodes :=
      (specHidden eng model opts feature train rng).1.map
          (fun v => ⟨some opts.hiddenSize, some (0.5 : Rat), some v⟩)
        ++ b._dropout_nodes_after_hidden_nodes.drop (specLen feature)
    _avg_pooling :=
      { b._avg_pooling with
        val := some (eng.avgPool opts.hiddenSize (specHidden eng model opts feature train rng).1) }
    _max_pooling :=
      { b._max_pooling with
        val := some (eng.maxPool opts.hiddenSize (specHidden eng model opts feature train rng).1) }
    _min_pooling :=
      { b._min_pooling with
        val := some (eng.minPool opts.hiddenSize (specHidden eng model opts feature train rng).1) }
    _concat := { b._concat with val := some (specPooled eng model opts feature train rng) }
    _neural_output :=
      { b._neural_output with val := some (specScores eng model opts feature train rng) } }

/-! ## Predicates on builder states -/

/-- Every slot is bound the way `initial pcg model opts` binds it. -/
structure Bound {V L U : Type} (b : GraphBuilder V L U) (pcg : Nat) (model : ModelParams L U)
    (opts : HyperParams) : Prop where
  graph : b._pcg = some pcg
  word_inputs : ∀ nd ∈ b._word_inputs,
    nd.param = some model.words ∧ nd.dim = some opts.wordDim
  dropout_input : ∀ nd ∈ b._dropout_nodes_after_input_nodes,
    nd.dim = some opts.wordDim ∧ nd.drop_value = some (0.2 : Rat)
  window : b._word_window._inDim = some opts.wordDim ∧
    b._word_window._context = some opts.wordContext
  hidden : ∀ nd ∈ b._hidden,
    nd.param = some model.hidden_linear ∧ nd.dim = some opts.hiddenSize
  dropout_hidden : ∀ nd ∈ b._dropout_nodes_after_hidden_nodes,
    nd.dim = some opts.hiddenSize ∧ nd.drop_value = some (0.5 : Rat)
  avg : b._avg_pooling.dim = some opts.hiddenSize
  max : b._max_pooling.dim = some opts.hiddenSize
  min : b._min_pooling.dim = some opts.hiddenSize
  concat : b._concat.dim = some (opts.hiddenSize * 3)
  output : b._neural_output.param = some model.olayer_linear ∧
    b._neural_output.dim = some opts.labelSize

/-- Each of the five per-position collections has `n` slots and each of the
three poolers has its capacity parameter set to `n`. -/
structure Capacity {V L U : Type} (b : GraphBuilder V L U) (n : Nat) : Prop where
  word_inputs : b._word_inputs.length = n
  dropout_input : b._dropout_nodes_after_input_nodes.length = n
  window : b._word_window._outputs.length = n
  hidden : b._hidden.length = n
  dropout_hidden : b._dropout_nodes_after_hidden_nodes.length = n
  avg : b._avg_pooling.size = some n
  max : b._max_pooling.size = some n
  min : b._min_pooling.size = some n

/-- The builder with every node output forgotten: what is left is the
capacity and the bindings. -/
def GraphBuilder.eraseOutputs {V L U : Type} (b : GraphBuilder V L U) : GraphBuilder V L U :=
  { b with
    _word_inputs := b._word_inputs.map fun nd => { nd with val := none }
    _dropout_nodes_after_input_nodes :=
      b._dropout_nodes_after_input_nodes.map fun nd => { nd with val := none }
    _dropout_nodes_after_hidden_nodes :=
      b._dropout_nodes_after_hidden_nodes.map fun nd => { nd with val := none }
    _word_window :=
      { b._word_window with _outputs := b._word_window._outputs.map fun _ => { val := none } }
    _hidden := b._hidden.map fun nd => { nd with val := none }
    _avg_pooling := { b._avg_pooling with val := none }
    _max_pooling := { b._max_pooling with val := none }
    _min_pooling := { b._min_pooling with val := none }
    _concat := { b._concat with val := none }
    _neural_output := { b._neural_output with val := none } }

/-! ## A concrete engine, for running the definitions -/

/-- A small engine over the integers. -/
def demoEngine : Engine Int Int Int Nat where
  lookup := fun tbl d tok => tbl + d * tok
  dropoutEval := fun _ _ v => v
  dropoutTrain := fun _ _ r v => (if r % 2 = 0 then 0 else 2 * v, r + 1)
  window := fun _ c vs i =>
    ((List.range (2 * c.toNat + 1)).map fun k =>
      if c.toNat ≤ i + k then vs.getD (i + k - c.toNat) 0 else 0).sum
  uni := fun u _ v => u * v + 1
  avgPool := fun _ vs => vs.sum / vs.length
  maxPool := fun _ vs => vs.foldl max (vs.headD 0)
  minPool := fun _ vs => vs.foldl min (vs.headD 0)
  concat := fun _ a b c => a + 10 * b + 100 * c
  linear := fun u _ v => u * v

def demoModel : ModelParams Int Int := { words := 1, hidden_linear := 2, olayer_linear := 3 }

def demoOpts : HyperParams := { wordDim := 50, wordContext := 2, hiddenSize := 100, labelSize := 5 }

/-- The state the empty constructor leaves. -/
def GraphBuilder.fresh {V L U : Type} : GraphBuilder V L U := {}

/-- A builder taken through `createNodes(n)` and `initial` with the
demonstration parameters and graph pointer 0. -/
def demoBuilder (n : Nat) : GraphBuilder Int Int Int :=
  match ((GraphBuilder.fresh : GraphBuilder Int Int Int).createNodes n).bind
      fun b => b.initial 0 demoModel demoOpts with
  | .done b => b
  | _ => GraphBuilder.fresh

/-- A five-slot builder after a training pass over five tokens: every slot
of every collection carries an output of its own. -/
def demoUsed : GraphBuilder Int Int Int :=
  forwardResult demoEngine demoModel demoOpts ⟨[5, 6, 7, 8, 9]⟩ true 3 (demoBuilder 5)

end N3LDG

namespace N3LDG

/-! ## Sequencing, loops and resizing -/

section Basics

variable {α β γ G σ : Type}

@[simp] theorem Outcome.bind_done (a : α) (f : α → Outcome β) :
    (Outcome.done a).bind f = f a := rfl

@[simp] theorem Outcome.bind_failure (f : α → Outcome β) :
    (Outcome.failure : Outcome α).bind f = .failure := rfl

@[simp] theorem Outcome.bind_undefined (f : α → Outcome β) :
    (Outcome.undefined : Outcome α).bind f = .undefined := rfl

theorem Outcome.bind_assoc (o : Outcome α) (f : α → Outcome β) (k : β → Outcome γ) :
    (o.bind f).bind k = o.bind fun a => (f a).bind k := by
  cases o <;> rfl

theorem Outcome.bind_congr (o : Outcome α) {f k : α → Outcome β} (h : ∀ a, f a = k a) :
    o.bind f = o.bind k := by
  cases o <;> simp [h]

@[simp] theorem length_resize (d : α) (n : Nat) (xs : List α) : (resize d n xs).length = n := by
  simp only [resize, List.length_append, List.length_take, List.length_replicate]
  omega

theorem getElem?_resize_of_lt (d : α) {n i : Nat} {xs : List α} (hn : i < n)
    (hx : i < xs.length) : (resize d n xs)[i]? = xs[i]? := by
  unfold resize
  rw [List.getElem?_append_left (by simp; omega), List.getElem?_take_of_lt hn]

theorem resize_of_length_le (d : α) {n : Nat} {xs : List α} (h : xs.length ≤ n) :
    resize d n xs = xs ++ List.replicate (n - xs.length) d := by
  unfold resize
  rw [List.take_of_length_le h]

theorem forRange_congr {body body2 : Nat → σ → Outcome σ} :
    ∀ (n : Nat) (s : σ), (∀ i, i < n → ∀ t, body i t = body2 i t) →
      forRange body n s = forRange body2 n s
  | 0, _, _ => rfl
  | n + 1, s, h => by
    simp only [forRange]
    rw [forRange_congr n s fun i hi t => h i (Nat.lt_succ_of_lt hi) t]
    exact Outcome.bind_congr _ (h n (Nat.lt_succ_self n))

theorem zipTraverse_length (fwd : G → α → β → Outcome (α × G)) :
    ∀ (as : List α) (bs : List β) (g : G) (t : List α × G),
      zipTraverse fwd as bs g = .done t → t.1.length = min as.length bs.length
  | [], _, g, t, h => by
    simp only [zipTraverse, Outcome.done.injEq] at h
    subst h
    simp
  | _ :: _, [], g, t, h => by
    simp only [zipTraverse, Outcome.done.injEq] at h
    subst h
    simp
  | a :: as, x :: xs, g, t, h => by
    simp only [zipTraverse] at h
    cases hf : fwd g a x with
    | failure => simp [hf] at h
    | undefined => simp [hf] at h
    | done r =>
      rw [hf, Outcome.bind_done] at h
      cases hz : zipTraverse fwd as xs r.2 with
      | failure => simp [hz] at h
      | undefined => simp [hz] at h
      | done u =>
        rw [hz, Outcome.bind_done, Outcome.done.injEq] at h
        subst h
        have := zipTraverse_length fwd as xs r.2 u hz
        simp only [List.length_cons, this]
        omega

theorem zipTraverse_snoc (fwd : G → α → β → Outcome (α × G)) (a : α) (x : β) :
    ∀ (as : List α) (bs : List β) (g : G), as.length = bs.length →
      zipTraverse fwd (as ++ [a]) (bs ++ [x]) g =
        (zipTraverse fwd as bs g).bind fun t =>
          (fwd t.2 a x).bind fun r => .done (t.1 ++ [r.1], r.2)
  | [], [], g, _ => by
    simp only [List.nil_append, zipTraverse, Outcome.bind_done]
  | [], _ :: _, _, h => by simp at h
  | _ :: _, [], _, h => by simp at h
  | a0 :: as, b0 :: bs, g, h => by
    have hl : as.length = bs.length := by simpa using h
    rw [List.cons_append, List.cons_append]
    simp only [zipTraverse, Outcome.bind_assoc]
    refine Outcome.bind_congr _ fun r => ?_
    rw [zipTraverse_snoc fwd a x as bs r.2 hl]
    simp only [Outcome.bind_assoc, Outcome.bind_done]
    refine Outcome.bind_congr _ fun t => ?_
    refine Outcome.bind_congr _ fun q => ?_
    simp

theorem zipTraverse_map (fwd : G → α → γ → Outcome (α × G)) (f : β → γ) :
    ∀ (as : List α) (bs : List β) (g : G),
      zipTraverse (fun g a x => fwd g a (f x)) as bs g = zipTraverse fwd as (bs.map f) g
  | [], _, _ => by simp [zipTraverse]
  | _ :: _, [], _ => by simp [zipTraverse]
  | a :: as, x :: xs, g => by
    simp only [zipTraverse, List.map_cons]
    refine Outcome.bind_congr _ fun r => ?_
    rw [zipTraverse_map fwd f as xs r.2]

/-- A slot loop over the first `n` positions is one pass over the first `n`
slots and inputs; the slots behind them are untouched. -/
theorem forRange_slotStep (fwd : G → α → β → Outcome (α × G)) (ins : List β) (xs : List α)
    (g : G) : ∀ n : Nat, n ≤ xs.length → n ≤ ins.length →
      forRange (slotStep fwd ins) n (xs, g) =
        (zipTraverse fwd (xs.take n) (ins.take n) g).bind fun t =>
          .done (t.1 ++ xs.drop n, t.2)
  | 0, _, _ => by simp [forRange, zipTraverse]
  | n + 1, hx, hi => by
    have hx1 : n < xs.length := hx
    have hi1 : n < ins.length := hi
    simp only [forRange]
    rw [forRange_slotStep fwd ins xs g n (Nat.le_of_lt hx1) (Nat.le_of_lt hi1)]
    rw [List.take_succ, List.take_succ, List.getElem?_eq_getElem hx1,
      List.getElem?_eq_getElem hi1]
    simp only [Option.toList]
    rw [zipTraverse_snoc fwd _ _ _ _ g (by simp [Nat.min_eq_left, Nat.le_of_lt hx1, Nat.le_of_lt hi1])]
    simp only [Outcome.bind_assoc, Outcome.bind_done]
    cases hz : zipTraverse fwd (xs.take n) (ins.take n) g with
    | failure => rfl
    | undefined => rfl
    | done t =>
      have hlen : t.1.length = n := by
        have := zipTraverse_length fwd _ _ g t hz
        simp only [List.length_take] at this
        omega
      simp only [Outcome.bind_done, slotStep]
      have h1 : (t.1 ++ xs.drop n)[n]? = some xs[n] := by
        rw [List.getElem?_append_right (by omega), hlen, Nat.sub_self, List.getElem?_drop]
        simp [hx1]
      rw [h1, List.getElem?_eq_getElem hi1]
      refine Outcome.bind_congr _ fun r => ?_
      rw [List.set_append_right _ _ (by omega), hlen, Nat.sub_self,
        List.drop_eq_getElem_cons hx1]
      simp only [List.set_cons_zero, List.append_assoc, List.singleton_append]

end Basics

end N3LDG

namespace N3LDG

/-! ## The loops of `forward` on bound slots -/

section Loops

variable {V L U R β : Type}

theorem outputs_map_some (vs : List V) : outputs (vs.map some) = some vs := by
  induction vs with
  | nil => rfl
  | cons v vs ih => simp [outputs, ih]

theorem length_dropSeq (eng : Engine V L U R) (rate : Rat) (dim : Int) (train : Bool) :
    ∀ (vs : List V) (r : R), (dropSeq eng rate dim train vs r).1.length = vs.length
  | [], _ => rfl
  | v :: vs, r => by
    unfold dropSeq
    split <;> simp [length_dropSeq eng rate dim train vs]

theorem dropSeq_eval (eng : Engine V L U R) (rate : Rat) (dim : Int) :
    ∀ (vs : List V) (r : R),
      dropSeq eng rate dim false vs r = (vs.map (eng.dropoutEval rate dim), r)
  | [], _ => rfl
  | v :: vs, r => by
    unfold dropSeq
    simp [dropSeq_eval eng rate dim vs r]

theorem words_num_eq (feature : Feature) :
    (if feature.m_words.length > max_sentence_length then max_sentence_length
      else feature.m_words.length) = specLen feature := by
  unfold specLen
  split <;> omega

theorem zipTraverse_lookup (eng : Engine V L U R) (p : L) (d : Int) :
    ∀ (nds : List (LookupNode V L)) (toks : List Token) (g : Graph R),
      nds.length = toks.length →
      (∀ nd ∈ nds, nd.param = some p ∧ nd.dim = some d) →
      zipTraverse (LookupNode.forward eng) nds toks g =
        .done (toks.map (fun t => ⟨some p, some d, some (eng.lookup p d t)⟩), g)
  | [], [], _, _, _ => rfl
  | [], _ :: _, _, h, _ => by simp at h
  | _ :: _, [], _, h, _ => by simp at h
  | nd :: nds, t :: ts, g, h, hb => by
    obtain ⟨hp, hd⟩ := hb nd (List.mem_cons_self _ _)
    have ih := zipTraverse_lookup eng p d nds ts g (by simpa using h)
      (fun x hx => hb x (List.mem_cons_of_mem _ hx))
    cases nd
    simp only at hp hd
    subst hp hd
    simp [zipTraverse, LookupNode.forward, ih]

theorem zipTraverse_uni (eng : Engine V L U R) (p : U) (d : Int) :
    ∀ (nds : List (UniNode V U)) (vs : List V) (g : Graph R),
      nds.length = vs.length →
      (∀ nd ∈ nds, nd.param = some p ∧ nd.dim = some d) →
      zipTraverse (UniNode.forward eng) nds (vs.map some) g =
        .done (vs.map (fun v => ⟨some p, some d, some (eng.uni p d v)⟩), g)
  | [], [], _, _, _ => rfl
  | [], _ :: _, _, h, _ => by simp at h
  | _ :: _, [], _, h, _ => by simp at h
  | nd :: nds, t :: ts, g, h, hb => by
    obtain ⟨hp, hd⟩ := hb nd (List.mem_cons_self _ _)
    have ih := zipTraverse_uni eng p d nds ts g (by simpa using h)
      (fun x hx => hb x (List.mem_cons_of_mem _ hx))
    cases nd
    simp only at hp hd
    subst hp hd
    simp [zipTraverse, UniNode.forward, ih]

theorem zipTraverse_dropout (eng : Engine V L U R) (d : Int) (p : Rat) :
    ∀ (nds : List (DropoutNode V)) (vs : List V) (g : Graph R),
      nds.length = vs.length →
      (∀ nd ∈ nds, nd.dim = some d ∧ nd.drop_value = some p) →
      zipTraverse (DropoutNode.forward eng) nds (vs.map some) g =
        .done ((dropSeq eng p d g.train vs g.rng).1.map (fun v => ⟨some d, some p, some v⟩),
          { g with rng := (dropSeq eng p d g.train vs g.rng).2 })
  | [], [], _, _, _ => rfl
  | [], _ :: _, _, h, _ => by simp at h
  | _ :: _, [], _, h, _ => by simp at h
  | nd :: nds, t :: ts, g, h, hb => by
    obtain ⟨hd, hp⟩ := hb nd (List.mem_cons_self _ _)
    have ih := fun g => zipTraverse_dropout eng d p nds ts g (by simpa using h)
      (fun x hx => hb x (List.mem_cons_of_mem _ hx))
    cases nd
    simp only at hp hd
    subst hp hd
    cases ht : g.train <;>
      simp [zipTraverse, DropoutNode.forward, ih, ht, dropSeq]

/-- The lookup loop (source lines 95-97) on bound slots. -/
theorem lookup_loop (eng : Engine V L U R) (p : L) (d : Int) (nds : List (LookupNode V L))
    (toks : List Token) (g : Graph R) (n : Nat) (hn : n ≤ nds.length) (ht : n ≤ toks.length)
    (hb : ∀ nd ∈ nds, nd.param = some p ∧ nd.dim = some d) :
    forRange (slotStep (LookupNode.forward eng) toks) n (nds, g) =
      .done (((toks.take n).map (eng.lookup p d)).map (fun v => ⟨some p, some d, some v⟩)
        ++ nds.drop n, g) := by
  rw [forRange_slotStep _ _ _ _ n hn ht,
    zipTraverse_lookup eng p d _ _ g (by simp [Nat.min_eq_left, hn, ht])
      (fun x hx => hb x (List.mem_of_mem_take hx))]
  simp only [Outcome.bind_done, List.map_map]
  rfl

/-- A dropout loop (source lines 99-101 and 110-112) on bound slots whose
input nodes carry the outputs `vs`. -/
theorem dropout_loop (eng : Engine V L U R) (d : Int) (p : Rat) (val : β → Option V)
    (nds : List (DropoutNode V)) (ins : List β) (vs : List V) (g : Graph R) (n : Nat)
    (hn : n ≤ nds.length) (hi : n ≤ ins.length) (hv : (ins.take n).map val = vs.map some)
    (hb : ∀ nd ∈ nds, nd.dim = some d ∧ nd.drop_value = some p) :
    forRange (slotStep (fun g nd x => DropoutNode.forward eng g nd (val x)) ins) n (nds, g) =
      .done ((dropSeq eng p d g.train vs g.rng).1.map (fun v => ⟨some d, some p, some v⟩)
          ++ nds.drop n,
        { g with rng := (dropSeq eng p d g.train vs g.rng).2 }) := by
  have hl : vs.length = n := by
    have := congrArg List.length hv
    simp only [List.length_map, List.length_take] at this
    omega
  rw [forRange_slotStep _ _ _ _ n hn hi,
    zipTraverse_map (DropoutNode.forward eng) val, hv,
    zipTraverse_dropout eng d p _ _ g (by simp [Nat.min_eq_left, hn, hl])
      (fun x hx => hb x (List.mem_of_mem_take hx))]
  simp

/-- The hidden-projection loop (source lines 106-108) on bound slots whose
input slots carry the outputs `vs`. -/
theorem uni_loop (eng : Engine V L U R) (p : U) (d : Int) (val : β → Option V)
    (nds : List (UniNode V U)) (ins : List β) (vs : List V) (g : Graph R) (n : Nat)
    (hn : n ≤ nds.length) (hi : n ≤ ins.length) (hv : (ins.take n).map val = vs.map some)
    (hb : ∀ nd ∈ nds, nd.param = some p ∧ nd.dim = some d) :
    forRange (slotStep (fun g nd x => UniNode.forward eng g nd (val x)) ins) n (nds, g) =
      .done ((vs.map (eng.uni p d)).map (fun v => ⟨some p, some d, some v⟩) ++ nds.drop n,
        g) := by
  have hl : vs.length = n := by
    have := congrArg List.length hv
    simp only [List.length_map, List.length_take] at this
    omega
  rw [forRange_slotStep _ _ _ _ n hn hi,
    zipTraverse_map (UniNode.forward eng) val, hv,
    zipTraverse_uni eng p d _ _ g (by simp [Nat.min_eq_left, hn, hl])
      (fun x hx => hb x (List.mem_of_mem_take hx))]
  simp

end Loops

end N3LDG

namespace N3LDG

section Forward

variable {V L U R : Type}

theorem length_specLookups (eng : Engine V L U R) (model : ModelParams L U) (opts : HyperParams)
    (feature : Feature) : (specLookups eng model opts feature).length = specLen feature := by
  simp only [specLookups, List.length_map, List.length_take]
  exact Nat.min_eq_left (Nat.min_le_left _ _)

theorem length_specEmbedded (eng : Engine V L U R) (model : ModelParams L U) (opts : HyperParams)
    (feature : Feature) (train : Bool) (rng : R) :
    (specEmbedded eng model opts feature train rng).1.length = specLen feature := by
  simp only [specEmbedded, length_dropSeq, length_specLookups]

theorem length_specContext (eng : Engine V L U R) (model : ModelParams L U) (opts : HyperParams)
    (feature : Feature) (train : Bool) (rng : R) :
    (specContext eng model opts feature train rng).length = specLen feature := by
  simp only [specContext, List.length_map, List.length_range, length_specEmbedded]

theorem length_specProjected (eng : Engine V L U R) (model : ModelParams L U)
    (opts : HyperParams) (feature : Feature) (train : Bool) (rng : R) :
    (specProjected eng model opts feature train rng).length = specLen feature := by
  simp only [specProjected, List.length_map, length_specContext]

theorem length_specHidden (eng : Engine V L U R) (model : ModelParams L U) (opts : HyperParams)
    (feature : Feature) (train : Bool) (rng : R) :
    (specHidden eng model opts feature train rng).1.length = specLen feature := by
  simp only [specHidden, length_dropSeq, length_specProjected]

/-- Taking the first `n` nodes of a collection whose first `n` slots were just
written, and reading their outputs. -/
theorem take_written {α : Type} (mk : V → α) (val : α → Option V) (hval : ∀ v, val (mk v) = some v)
    (vs : List V) (rest : List α) (n : Nat) (hl : vs.length = n) :
    ((vs.map mk ++ rest).take n).map val = vs.map some := by
  rw [List.take_left' (by simpa using hl), List.map_map]
  exact List.map_congr_left fun v _ => hval v

theorem getPNodes_written {α : Type} (mk : V → α) (vs : List V) (rest : List α) (n : Nat)
    (hl : vs.length = n) : getPNodes (vs.map mk ++ rest) n = .done (vs.map mk) := by
  unfold getPNodes
  rw [if_pos (by simp; omega), List.take_left' (by simpa using hl)]

theorem window_forward_bound (eng : Engine V L U R) (g : Graph R) (wb : WindowBuilder V)
    (d c : Int) (vs : List V) (hd : wb._inDim = some d) (hc : wb._context = some c)
    (hl : vs.length ≤ wb._outputs.length) :
    wb.forward eng g (vs.map some) =
      .done ({ wb with
                _outputs := (List.range vs.length).map (fun i => ⟨some (eng.window d c vs i)⟩)
                              ++ wb._outputs.drop vs.length }, g) := by
  unfold WindowBuilder.forward
  rw [outputs_map_some, hd, hc]
  simp only [if_pos hl]

theorem pool_forward_bound (op : Int → List V → V) (g : Graph R) (nd : PoolNode V) (c : Nat)
    (d : Int) (vs : List V) (hs : nd.size = some c) (hd : nd.dim = some d)
    (hl : vs.length ≤ c) :
    nd.forward op g (vs.map some) = .done ({ nd with val := some (op d vs) }, g) := by
  unfold PoolNode.forward
  rw [outputs_map_some, hs, hd]
  simp only [if_pos hl]

/-- On a bound builder with enough capacity, `forward` returns, and the world
it leaves is the one the specification's steps describe. -/
theorem forward_of_bound (eng : Engine V L U R) (model : ModelParams L U) (opts : HyperParams)
    (feature : Feature) (bTrain : Bool) (heap : List (Graph R)) (b : GraphBuilder V L U)
    (p : Nat) (g0 : Graph R) (c : Nat) (hB : Bound b p model opts) (hC : Capacity b c)
    (hlen : specLen feature ≤ c) (hg : heap[p]? = some g0) :
    GraphBuilder.forward eng feature bTrain ⟨heap, b⟩ =
      .done
        { heap := heap.set p ⟨bTrain, (specHidden eng model opts feature bTrain g0.rng).2⟩
          gb := forwardResult eng model opts feature bTrain g0.rng b } := by
  have hn : specLen feature ≤ feature.m_words.length := Nat.min_le_left _ _
  have e1 : forRange (slotStep (LookupNode.forward eng) feature.m_words) (specLen feature)
      (b._word_inputs, ⟨bTrain, g0.rng⟩) =
      .done ((specLookups eng model opts feature).map
          (fun v => ⟨some model.words, some opts.wordDim, some v⟩)
        ++ b._word_inputs.drop (specLen feature), ⟨bTrain, g0.rng⟩) :=
    lookup_loop eng model.words opts.wordDim b._word_inputs feature.m_words
      ⟨bTrain, g0.rng⟩ (specLen feature) (by rw [hC.word_inputs]; exact hlen) hn hB.word_inputs
  have e2 : forRange (slotStep (fun g nd (x : LookupNode V L) => DropoutNode.forward eng g nd x.val)
        ((specLookups eng model opts feature).map
          (fun v => ⟨some model.words, some opts.wordDim, some v⟩)
        ++ b._word_inputs.drop (specLen feature))) (specLen feature)
      (b._dropout_nodes_after_input_nodes, ⟨bTrain, g0.rng⟩) =
      .done ((specEmbedded eng model opts feature bTrain g0.rng).1.map
          (fun v => ⟨some opts.wordDim, some (0.2 : Rat), some v⟩)
        ++ b._dropout_nodes_after_input_nodes.drop (specLen feature),
        ⟨bTrain, (specEmbedded eng model opts feature bTrain g0.rng).2⟩) :=
    dropout_loop eng opts.wordDim (0.2 : Rat) (fun x : LookupNode V L => x.val)
      b._dropout_nodes_after_input_nodes _ (specLookups eng model opts feature)
      ⟨bTrain, g0.rng⟩ (specLen feature) (by rw [hC.dropout_input]; exact hlen)
      (by simp [length_specLookups])
      (take_written (fun v => (⟨some model.words, some opts.wordDim, some v⟩ : LookupNode V L))
        (fun x => x.val) (fun _ => rfl) _ _ _ (length_specLookups eng model opts feature))
      hB.dropout_input
  have e3 := getPNodes_written (fun v => (⟨some opts.wordDim, some (0.2 : Rat), some v⟩ : DropoutNode V))
    (specEmbedded eng model opts feature bTrain g0.rng).1
    (b._dropout_nodes_after_input_nodes.drop (specLen feature)) (specLen feature)
    (length_specEmbedded eng model opts feature bTrain g0.rng)
  have e4 : b._word_window.forward eng ⟨bTrain, (specEmbedded eng model opts feature bTrain g0.rng).2⟩
      ((specEmbedded eng model opts feature bTrain g0.rng).1.map some) =
      .done ({ b._word_window with
                _outputs := (specContext eng model opts feature bTrain g0.rng).map (fun v => ⟨some v⟩)
                  ++ b._word_window._outputs.drop (specLen feature) },
        ⟨bTrain, (specEmbedded eng model opts feature bTrain g0.rng).2⟩) := by
    rw [window_forward_bound eng _ _ opts.wordDim opts.wordContext _ hB.window.1 hB.window.2
      (by rw [length_specEmbedded, hC.window]; exact hlen)]
    simp only [specContext, List.map_map, length_specEmbedded]
    rfl
  have e5 : forRange (slotStep (fun g nd (x : WindowSlot V) => UniNode.forward eng g nd x.val)
        ((specContext eng model opts feature bTrain g0.rng).map (fun v => ⟨some v⟩)
          ++ b._word_window._outputs.drop (specLen feature))) (specLen feature)
      (b._hidden, ⟨bTrain, (specEmbedded eng model opts feature bTrain g0.rng).2⟩) =
      .done ((specProjected eng model opts feature bTrain g0.rng).map
          (fun v => ⟨some model.hidden_linear, some opts.hiddenSize, some v⟩)
        ++ b._hidden.drop (specLen feature),
        ⟨bTrain, (specEmbedded eng model opts feature bTrain g0.rng).2⟩) :=
    uni_loop eng model.hidden_linear opts.hiddenSize (fun x : WindowSlot V => x.val)
      b._hidden _ (specContext eng model opts feature bTrain g0.rng) _ (specLen feature)
      (by rw [hC.hidden]; exact hlen) (by simp [length_specContext])
      (take_written (fun v => (⟨some v⟩ : WindowSlot V)) (fun x => x.val) (fun _ => rfl) _ _ _
        (length_specContext eng model opts feature _ _))
      hB.hidden
  have e6 : forRange (slotStep (fun g nd (x : UniNode V U) => DropoutNode.forward eng g nd x.val)
        ((specProjected eng model opts feature bTrain g0.rng).map
          (fun v => ⟨some model.hidden_linear, some opts.hiddenSize, some v⟩)
        ++ b._hidden.drop (specLen feature))) (specLen feature)
      (b._dropout_nodes_after_hidden_nodes,
        ⟨bTrain, (specEmbedded eng model opts feature bTrain g0.rng).2⟩) =
      .done ((specHidden eng model opts feature bTrain g0.rng).1.map
          (fun v => ⟨some opts.hiddenSize, some (0.5 : Rat), some v⟩)
        ++ b._dropout_nodes_after_hidden_nodes.drop (specLen feature),
        ⟨bTrain, (specHidden eng model opts feature bTrain g0.rng).2⟩) :=
    dropout_loop eng opts.hiddenSize (0.5 : Rat) (fun x : UniNode V U => x.val)
      b._dropout_nodes_after_hidden_nodes _ (specProjected eng model opts feature bTrain g0.rng)
      ⟨bTrain, _⟩ (specLen feature) (by rw [hC.dropout_hidden]; exact hlen)
      (by simp [length_specProjected])
      (take_written
        (fun v => (⟨some model.hidden_linear, some opts.hiddenSize, some v⟩ : UniNode V U))
        (fun x => x.val) (fun _ => rfl) _ _ _
        (length_specProjected eng model opts feature _ _))
      hB.dropout_hidden
  have e7 := getPNodes_written (fun v => (⟨some opts.hiddenSize, some (0.5 : Rat), some v⟩ : DropoutNode V))
    (specHidden eng model opts feature bTrain g0.rng).1
    (b._dropout_nodes_after_hidden_nodes.drop (specLen feature)) (specLen feature)
    (length_specHidden eng model opts feature bTrain g0.rng)
  have hH : (specHidden eng model opts feature bTrain g0.rng).1.length ≤ c := by
    rw [length_specHidden]; exact hlen
  have e8 := fun (op : Int → List V → V) (g : Graph R) (nd : PoolNode V) (hs : nd.size = some c)
      (hd : nd.dim = some opts.hiddenSize) =>
    pool_forward_bound op g nd c opts.hiddenSize (specHidden eng model opts feature bTrain g0.rng).1
      hs hd hH
  have hm1 : ∀ (xs : List V),
      List.map (fun x : DropoutNode V => x.val)
        (xs.map (fun v => (⟨some opts.wordDim, some (0.2 : Rat), some v⟩ : DropoutNode V))) = xs.map some := by
    intro xs; rw [List.map_map]; rfl
  have hm2 : ∀ (xs : List V),
      List.map (fun x : DropoutNode V => x.val)
        (xs.map (fun v => (⟨some opts.hiddenSize, some (0.5 : Rat), some v⟩ : DropoutNode V))) = xs.map some := by
    intro xs; rw [List.map_map]; rfl
  unfold GraphBuilder.forward
  simp only [hB.graph, hg, words_num_eq, e1, Outcome.bind_done, e2, e3, hm1, e4, e5, e6, e7, hm2,
    e8 _ _ _ hC.avg hB.avg, e8 _ _ _ hC.max hB.max, e8 _ _ _ hC.min hB.min]
  simp only [ConcatNode.forward, hB.concat, LinearNode.forward, hB.output.1, hB.output.2,
    Outcome.bind_done, forwardResult, specScores, specPooled, hB.graph]

end Forward

end N3LDG
namespace N3LDG

/-! ## `createNodes`, `clear` and `initial` -/

section Setup

variable {V L U R : Type}

theorem resizeAll_capacity (n : Nat) (b : GraphBuilder V L U) :
    Capacity (b.resizeAll n) n where
  word_inputs := length_resize _ _ _
  dropout_input := length_resize _ _ _
  window := length_resize _ _ _
  hidden := length_resize _ _ _
  dropout_hidden := length_resize _ _ _
  avg := rfl
  max := rfl
  min := rfl

/-- The binding loop of `initial` (source lines 58-63) over the first `k`
positions. -/
theorem initial_loop (model : ModelParams L U) (opts : HyperParams)
    (wi : List (LookupNode V L)) (hid : List (UniNode V U)) :
    ∀ k : Nat, k ≤ wi.length → k ≤ hid.length →
      forRange (initialSlot model opts) k (wi, hid) =
        .done
          ((wi.take k).map (fun w => (w.setParam model.words).init opts.wordDim) ++ wi.drop k,
            (hid.take k).map (fun h => (h.setParam model.hidden_linear).init opts.hiddenSize)
              ++ hid.drop k)
  | 0, _, _ => by simp [forRange]
  | k + 1, hw, hh => by
    have hw1 : k < wi.length := hw
    have hh1 : k < hid.length := hh
    simp only [forRange]
    rw [initial_loop model opts wi hid k (Nat.le_of_lt hw1) (Nat.le_of_lt hh1)]
    have lw : ((wi.take k).map
        (fun w : LookupNode V L => (w.setParam model.words).init opts.wordDim)).length = k := by
      simp [Nat.min_eq_left, Nat.le_of_lt hw1]
    have lh : ((hid.take k).map
        (fun h : UniNode V U => (h.setParam model.hidden_linear).init opts.hiddenSize)).length
          = k := by
      simp [Nat.min_eq_left, Nat.le_of_lt hh1]
    simp only [Outcome.bind_done, initialSlot]
    rw [List.getElem?_append_right (by omega), lw, Nat.sub_self, List.getElem?_drop,
      List.getElem?_append_right (by omega), lh, Nat.sub_self, List.getElem?_drop]
    simp only [Nat.add_zero, List.getElem?_eq_getElem hw1, List.getElem?_eq_getElem hh1]
    rw [List.set_append_right _ _ (by omega), lw, Nat.sub_self,
      List.set_append_right _ _ (by omega), lh, Nat.sub_self,
      List.drop_eq_getElem_cons hw1, List.drop_eq_getElem_cons hh1,
      List.take_succ, List.take_succ, List.getElem?_eq_getElem hw1,
      List.getElem?_eq_getElem hh1]
    simp only [List.set_cons_zero, Option.toList, List.map_append, List.map_cons, List.map_nil,
      List.append_assoc, List.singleton_append]

/-- When the hidden collection has as many slots as the lookup collection,
`initial` returns, and binds every slot. -/
theorem initial_eq (pcg : Nat) (model : ModelParams L U) (opts : HyperParams)
    (b : GraphBuilder V L U) (h : b._word_inputs.length = b._hidden.length) :
    b.initial pcg model opts =
      .done
        { _pcg := some pcg
          _word_inputs :=
            b._word_inputs.map fun w => (w.setParam model.words).init opts.wordDim
          _hidden :=
            b._hidden.map fun h => (h.setParam model.hidden_linear).init opts.hiddenSize
          _dropout_nodes_after_input_nodes :=
            b._dropout_nodes_after_input_nodes.map
              fun node => (node.init opts.wordDim).setParam (0.2 : Rat)
          _dropout_nodes_after_hidden_nodes :=
            b._dropout_nodes_after_hidden_nodes.map
              fun node => (node.init opts.hiddenSize).setParam (0.5 : Rat)
          _word_window := b._word_window.init opts.wordDim opts.wordContext
          _avg_pooling := b._avg_pooling.init opts.hiddenSize
          _max_pooling := b._max_pooling.init opts.hiddenSize
          _min_pooling := b._min_pooling.init opts.hiddenSize
          _concat := b._concat.init (opts.hiddenSize * 3)
          _neural_output :=
            (b._neural_output.setParam model.olayer_linear).init opts.labelSize } := by
  unfold GraphBuilder.initial
  rw [initial_loop model opts _ _ _ (Nat.le_refl _) (Nat.le_of_eq h)]
  simp only [Outcome.bind_done, List.take_length, List.drop_length, List.append_nil]
  rw [h]
  simp only [List.take_length, List.drop_length, List.append_nil]

/-- After `initial` on a builder of capacity `n`, every slot is bound and the
capacity is still `n`. -/
theorem initial_of_capacity (pcg : Nat) (model : ModelParams L U) (opts : HyperParams)
    (b : GraphBuilder V L U) (n : Nat) (hC : Capacity b n) :
    ∃ b2, b.initial pcg model opts = .done b2 ∧ Bound b2 pcg model opts ∧ Capacity b2 n := by
  refine ⟨_, initial_eq pcg model opts b (by rw [hC.word_inputs, hC.hidden]), ?_, ?_⟩
  · constructor
    · rfl
    · intro nd hnd
      obtain ⟨w, _, rfl⟩ := List.mem_map.1 hnd
      exact ⟨rfl, rfl⟩
    · intro nd hnd
      obtain ⟨w, _, rfl⟩ := List.mem_map.1 hnd
      exact ⟨rfl, rfl⟩
    · exact ⟨rfl, rfl⟩
    · intro nd hnd
      obtain ⟨w, _, rfl⟩ := List.mem_map.1 hnd
      exact ⟨rfl, rfl⟩
    · intro nd hnd
      obtain ⟨w, _, rfl⟩ := List.mem_map.1 hnd
      exact ⟨rfl, rfl⟩
    · rfl
    · rfl
    · rfl
    · rfl
    · exact ⟨rfl, rfl⟩
  · constructor
    · simpa using hC.word_inputs
    · simpa using hC.dropout_input
    · simpa [WindowBuilder.init] using hC.window
    · simpa using hC.hidden
    · simpa using hC.dropout_hidden
    · simpa [PoolNode.init] using hC.avg
    · simpa [PoolNode.init] using hC.max
    · simpa [PoolNode.init] using hC.min

/-- For a non-negative count `createNodes` returns, with every collection
resized. -/
theorem createNodes_natCast (n : Nat) (b : GraphBuilder V L U) :
    b.createNodes (n : Int) = .done (b.resizeAll n) := by
  unfold GraphBuilder.createNodes
  rw [if_neg (by omega), Int.toNat_ofNat]

/-- After `createNodes(n)` and `initial`, every slot is bound and the capacity
is `n`. -/
theorem setup_of_createNodes (pcg n : Nat) (model : ModelParams L U) (opts : HyperParams)
    (b0 : GraphBuilder V L U) :
    ∃ b, (b0.createNodes (n : Int)).bind (fun b1 => b1.initial pcg model opts) = .done b ∧
      Bound b pcg model opts ∧ Capacity b n := by
  rw [createNodes_natCast, Outcome.bind_done]
  exact initial_of_capacity pcg model opts _ n (resizeAll_capacity n b0)

end Setup

end N3LDG
namespace N3LDG

section Grow

variable {V L U R : Type}

theorem resize_nil {α : Type} (d : α) (n : Nat) : resize d n [] = List.replicate n d := by
  simp [resize]

theorem resize_replicate {α : Type} (d : α) {n1 n2 : Nat} (h : n1 ≤ n2) :
    resize d n2 (List.replicate n1 d) = List.replicate n2 d := by
  rw [resize_of_length_le d (by simpa using h), List.length_replicate,
    List.append_replicate_replicate]
  congr 1
  omega

theorem map_resize_replicate {α : Type} {n1 n2 : Nat} (h : n1 ≤ n2) (d : α) (f : α → α)
    (hf : f (f d) = f d) :
    (resize d n2 (List.replicate n1 (f d))).map f = List.replicate n2 (f d) := by
  rw [resize_of_length_le d (by simpa using h), List.length_replicate,
    List.map_append, List.map_replicate, List.map_replicate, hf, List.append_replicate_replicate]
  congr 1
  omega

/-- Growing a freshly constructed builder in two steps, binding after each,
leaves the same state as growing and binding it once. -/
theorem grow_fresh (n1 n2 pcg : Nat) (model : ModelParams L U) (opts : HyperParams)
    (h : n1 ≤ n2) (b1 : GraphBuilder V L U)
    (h1 : ((GraphBuilder.fresh : GraphBuilder V L U).resizeAll n1).initial pcg model opts
      = .done b1) :
    (b1.resizeAll n2).initial pcg model opts =
      ((GraphBuilder.fresh : GraphBuilder V L U).resizeAll n2).initial pcg model opts := by
  have hC1 := resizeAll_capacity n1 (GraphBuilder.fresh : GraphBuilder V L U)
  rw [initial_eq pcg model opts _ (by rw [hC1.word_inputs, hC1.hidden]), Outcome.done.injEq] at h1
  have hC2 := resizeAll_capacity n2 b1
  have hC3 := resizeAll_capacity n2 (GraphBuilder.fresh : GraphBuilder V L U)
  rw [initial_eq pcg model opts _ (by rw [hC2.word_inputs, hC2.hidden]),
    initial_eq pcg model opts _ (by rw [hC3.word_inputs, hC3.hidden])]
  subst h1
  simp only [GraphBuilder.resizeAll, GraphBuilder.fresh, WindowBuilder.resize,
    WindowBuilder.init, PoolNode.setParam, PoolNode.init, ConcatNode.init, LinearNode.setParam,
    LinearNode.init, resize_nil, resize_replicate _ h, List.map_replicate]
  rw [map_resize_replicate h _ (fun w : LookupNode V L =>
      (w.setParam model.words).init opts.wordDim) rfl,
    map_resize_replicate h _ (fun w : UniNode V U =>
      (w.setParam model.hidden_linear).init opts.hiddenSize) rfl,
    map_resize_replicate h _ (fun w : DropoutNode V =>
      (w.init opts.wordDim).setParam (0.2 : Rat)) rfl,
    map_resize_replicate h _ (fun w : DropoutNode V =>
      (w.init opts.hiddenSize).setParam (0.5 : Rat)) rfl]

/-- The lookup slots of the demonstration builder. -/
theorem demoBuilder_word_inputs (n : Nat) :
    (demoBuilder n)._word_inputs = List.replicate n ⟨some 1, some 50, none⟩ := by
  have hC := resizeAll_capacity n (GraphBuilder.fresh : GraphBuilder Int Int Int)
  unfold demoBuilder
  rw [createNodes_natCast, Outcome.bind_done,
    initial_eq 0 demoModel demoOpts _ (by rw [hC.word_inputs, hC.hidden])]
  simp only [GraphBuilder.resizeAll, GraphBuilder.fresh, resize_nil, List.map_replicate]
  rfl

end Grow

end N3LDG
namespace N3LDG

/-! ## Capacity management and parameter binding -/

section SetupClaims

variable {V L U R : Type}

theorem slot_of_forall {α : Type} {P : α → Prop} {xs : List α} (h : ∀ x ∈ xs, P x) {i : Nat}
    (hi : i < xs.length) : ∃ nd, xs[i]? = some nd ∧ P nd :=
  ⟨xs[i], List.getElem?_eq_getElem hi, h _ (List.getElem_mem hi)⟩

/-- C5: for every `n ≥ 0`, `createNodes(n)` returns and afterwards, whatever
the sizes before the call, each of the five per-position slot collections
(Lookup, post-embedding Dropout, WindowEncoder outputs, hidden projection,
post-hidden Dropout) has exactly `n` slots and each of the three pooling
reducers has its capacity parameter set to `n`. -/
theorem createNodes_sets_capacity (n : Nat) (b : GraphBuilder V L U) :
    ∃ b2, b.createNodes (n : Int) = .done b2 ∧
      b2._word_inputs.length = n ∧
      b2._dropout_nodes_after_input_nodes.length = n ∧
      b2._word_window._outputs.length = n ∧
      b2._hidden.length = n ∧
      b2._dropout_nodes_after_hidden_nodes.length = n ∧
      b2._avg_pooling.size = some n ∧
      b2._max_pooling.size = some n ∧
      b2._min_pooling.size = some n :=
  ⟨b.resizeAll n, createNodes_natCast n b, length_resize _ _ _, length_resize _ _ _,
    length_resize _ _ _, length_resize _ _ _, length_resize _ _ _, rfl, rfl, rfl⟩

/-- C6: `initial(pcg, model, opts)` run after `createNodes(n)` returns, and
afterwards, for every position `i < n`, Lookup slot `i` is bound to
`model.words` with dimension `opts.wordDim`, hidden slot `i` to
`model.hidden_linear` with dimension `opts.hiddenSize`, post-embedding dropout
slot `i` has dimension `opts.wordDim` and rate 0.2, post-hidden dropout slot
`i` has dimension `opts.hiddenSize` and rate 0.5; the window encoder is
initialised with `(opts.wordDim, opts.wordContext)`, each pooler with
`opts.hiddenSize`, the concat unit with `3 * opts.hiddenSize`, and the output
layer is bound to `model.olayer_linear` with dimension `opts.labelSize`. -/
theorem initial_binds_every_slot (pcg n : Nat) (model : ModelParams L U) (opts : HyperParams)
    (b0 : GraphBuilder V L U) :
    ∃ b, (b0.createNodes (n : Int)).bind (fun b1 => b1.initial pcg model opts) = .done b ∧
      (∀ i, i < n → ∃ nd, b._word_inputs[i]? = some nd ∧
        nd.param = some model.words ∧ nd.dim = some opts.wordDim) ∧
      (∀ i, i < n → ∃ nd, b._hidden[i]? = some nd ∧
        nd.param = some model.hidden_linear ∧ nd.dim = some opts.hiddenSize) ∧
      (∀ i, i < n → ∃ nd, b._dropout_nodes_after_input_nodes[i]? = some nd ∧
        nd.dim = some opts.wordDim ∧ nd.drop_value = some (0.2 : Rat)) ∧
      (∀ i, i < n → ∃ nd, b._dropout_nodes_after_hidden_nodes[i]? = some nd ∧
        nd.dim = some opts.hiddenSize ∧ nd.drop_value = some (0.5 : Rat)) ∧
      b._word_window._inDim = some opts.wordDim ∧
      b._word_window._context = some opts.wordContext ∧
      b._avg_pooling.dim = some opts.hiddenSize ∧
      b._max_pooling.dim = some opts.hiddenSize ∧
      b._min_pooling.dim = some opts.hiddenSize ∧
      b._concat.dim = some (3 * opts.hiddenSize) ∧
      b._neural_output.param = some model.olayer_linear ∧
      b._neural_output.dim = some opts.labelSize ∧
      b._pcg = some pcg := by
  obtain ⟨b, hb, hB, hC⟩ := setup_of_createNodes pcg n model opts b0
  refine ⟨b, hb, ?_, ?_, ?_, ?_, hB.window.1, hB.window.2, hB.avg, hB.max, hB.min, ?_,
    hB.output.1, hB.output.2, hB.graph⟩
  · intro i hi
    exact slot_of_forall hB.word_inputs (by rw [hC.word_inputs]; exact hi)
  · intro i hi
    exact slot_of_forall hB.hidden (by rw [hC.hidden]; exact hi)
  · intro i hi
    exact slot_of_forall hB.dropout_input (by rw [hC.dropout_input]; exact hi)
  · intro i hi
    exact slot_of_forall hB.dropout_hidden (by rw [hC.dropout_hidden]; exact hi)
  · rw [hB.concat, Int.mul_comm]

/-- Instance of C6: three slots bound with the demonstration parameters. -/
theorem initial_binds_every_slot_witness :
    ∃ b, ((GraphBuilder.fresh : GraphBuilder Int Int Int).createNodes ((3 : Nat) : Int)).bind
        (fun b1 => b1.initial 0 demoModel demoOpts) = .done b ∧
      (∀ i, i < 3 → ∃ nd, b._word_inputs[i]? = some nd ∧
        nd.param = some demoModel.words ∧ nd.dim = some demoOpts.wordDim) ∧
      (∀ i, i < 3 → ∃ nd, b._hidden[i]? = some nd ∧
        nd.param = some demoModel.hidden_linear ∧ nd.dim = some demoOpts.hiddenSize) ∧
      (∀ i, i < 3 → ∃ nd, b._dropout_nodes_after_input_nodes[i]? = some nd ∧
        nd.dim = some demoOpts.wordDim ∧ nd.drop_value = some (0.2 : Rat)) ∧
      (∀ i, i < 3 → ∃ nd, b._dropout_nodes_after_hidden_nodes[i]? = some nd ∧
        nd.dim = some demoOpts.hiddenSize ∧ nd.drop_value = some (0.5 : Rat)) ∧
      b._word_window._inDim = some demoOpts.wordDim ∧
      b._word_window._context = some demoOpts.wordContext ∧
      b._avg_pooling.dim = some demoOpts.hiddenSize ∧
      b._max_pooling.dim = some demoOpts.hiddenSize ∧
      b._min_pooling.dim = some demoOpts.hiddenSize ∧
      b._concat.dim = some (3 * demoOpts.hiddenSize) ∧
      b._neural_output.param = some demoModel.olayer_linear ∧
      b._neural_output.dim = some demoOpts.labelSize ∧
      b._pcg = some 0 :=
  initial_binds_every_slot 0 3 demoModel demoOpts GraphBuilder.fresh

/-- C7 as stated fails for a negative count: `createNodes(-1)` on a builder
with five slots in every collection does not discard any slot; the first
`resize` rejects the call with `std::length_error`. -/
theorem createNodes_negative_is_rejected :
    (-1 : Int) < 5 ∧ demoUsed._word_inputs.length = 5 ∧
    demoUsed.createNodes (-1) = .failure ∧
    ¬ ∃ b2, demoUsed.createNodes (-1) = .done b2 :=
  ⟨by decide, rfl, rfl, fun h => h.elim fun _ hb => by cases hb⟩

/-- C7, amended: for every `n ≥ 0`, `createNodes(n)` returns; it leaves every
slot at a position below both the old size and `n` exactly as it was, in each
of the five per-position collections; it leaves the concat unit, the output
layer and the graph pointer unchanged; and it does not reject an `n` below the
old size: the slots at positions `n` and beyond are gone afterwards. -/
theorem createNodes_frame (n : Int) (hn : 0 ≤ n) (b : GraphBuilder V L U) :
    ∃ b2, b.createNodes n = .done b2 ∧
      (∀ i : Nat, (i : Int) < n → i < b._word_inputs.length →
        b2._word_inputs[i]? = b._word_inputs[i]?) ∧
      (∀ i : Nat, (i : Int) < n → i < b._dropout_nodes_after_input_nodes.length →
        b2._dropout_nodes_after_input_nodes[i]? = b._dropout_nodes_after_input_nodes[i]?) ∧
      (∀ i : Nat, (i : Int) < n → i < b._word_window._outputs.length →
        b2._word_window._outputs[i]? = b._word_window._outputs[i]?) ∧
      (∀ i : Nat, (i : Int) < n → i < b._hidden.length → b2._hidden[i]? = b._hidden[i]?) ∧
      (∀ i : Nat, (i : Int) < n → i < b._dropout_nodes_after_hidden_nodes.length →
        b2._dropout_nodes_after_hidden_nodes[i]? = b._dropout_nodes_after_hidden_nodes[i]?) ∧
      b2._concat = b._concat ∧
      b2._neural_output = b._neural_output ∧
      b2._pcg = b._pcg ∧
      (∀ i : Nat, n ≤ (i : Int) →
        b2._word_inputs[i]? = none ∧
        b2._dropout_nodes_after_input_nodes[i]? = none ∧
        b2._word_window._outputs[i]? = none ∧
        b2._hidden[i]? = none ∧
        b2._dropout_nodes_after_hidden_nodes[i]? = none) := by
  obtain ⟨k, rfl⟩ := Int.eq_ofNat_of_zero_le hn
  have hC := resizeAll_capacity k b
  refine ⟨b.resizeAll k, createNodes_natCast k b,
    fun i h1 h2 => getElem?_resize_of_lt _ (by omega) h2,
    fun i h1 h2 => getElem?_resize_of_lt _ (by omega) h2,
    fun i h1 h2 => getElem?_resize_of_lt _ (by omega) h2,
    fun i h1 h2 => getElem?_resize_of_lt _ (by omega) h2,
    fun i h1 h2 => getElem?_resize_of_lt _ (by omega) h2, rfl, rfl, rfl, fun i hi => ?_⟩
  have hi2 : k ≤ i := by omega
  exact ⟨List.getElem?_eq_none (by rw [hC.word_inputs]; exact hi2),
    List.getElem?_eq_none (by rw [hC.dropout_input]; exact hi2),
    List.getElem?_eq_none (by rw [hC.window]; exact hi2),
    List.getElem?_eq_none (by rw [hC.hidden]; exact hi2),
    List.getElem?_eq_none (by rw [hC.dropout_hidden]; exact hi2)⟩

/-- Instance of C7 (amended): a five-slot builder whose slots all carry
outputs of a training pass is shrunk to three slots.  Slot 2 of every
collection (and slot 1 of the post-hidden dropout) still holds its binding and
its output, slot 3 is gone, and the concat unit, output layer and graph
pointer are the ones from before. -/
theorem createNodes_frame_witness :
    (0 : Int) ≤ 3 ∧
    ∃ b2, demoUsed.createNodes 3 = .done b2 ∧
      b2._word_inputs[2]? = some ⟨some 1, some 50, some 351⟩ ∧
      b2._dropout_nodes_after_input_nodes[2]? = some ⟨some 50, some (0.2 : Rat), some 702⟩ ∧
      b2._word_window._outputs[2]? = some ⟨some 2106⟩ ∧
      b2._hidden[2]? = some ⟨some 2, some 100, some 4213⟩ ∧
      b2._dropout_nodes_after_hidden_nodes[1]?
        = some ⟨some 100, some (0.5 : Rat), some 4818⟩ ∧
      b2._concat = ⟨some 300, some 66427⟩ ∧
      b2._neural_output = ⟨some 3, some 5, some 199281⟩ ∧
      b2._pcg = some 0 ∧
      b2._word_inputs[3]? = none ∧
      b2._dropout_nodes_after_input_nodes[3]? = none ∧
      b2._word_window._outputs[3]? = none ∧
      b2._hidden[3]? = none ∧
      b2._dropout_nodes_after_hidden_nodes[3]? = none := by
  obtain ⟨b2, h, f1, f2, f3, f4, f5, hc, ho, hp, hgone⟩ :=
    createNodes_frame 3 (by decide) demoUsed
  exact ⟨by decide, b2, h,
    (f1 2 (by decide) (by decide)).trans rfl,
    (f2 2 (by decide) (by decide)).trans rfl,
    (f3 2 (by decide) (by decide)).trans rfl,
    (f4 2 (by decide) (by decide)).trans rfl,
    (f5 1 (by decide) (by decide)).trans rfl,
    hc.trans rfl, ho.trans rfl, hp.trans rfl,
    (hgone 3 (by decide)).1, (hgone 3 (by decide)).2.1, (hgone 3 (by decide)).2.2.1,
    (hgone 3 (by decide)).2.2.2.1, (hgone 3 (by decide)).2.2.2.2⟩

/-- C10: `clear()` empties the Lookup, WindowEncoder and hidden-projection
slot collections and leaves both dropout collections, the three poolers, the
concat unit and the output layer unchanged.  Hence after `createNodes(n)` and
`clear()` the lookup, window and hidden collections have 0 slots while both
dropout collections still have `n` (so for `n > 0` the five no longer share
one size), and a following `initial` returns having bound no Lookup or hidden
slot: both collections are still empty. -/
theorem clear_frame (n pcg : Nat) (model : ModelParams L U) (opts : HyperParams)
    (b : GraphBuilder V L U) :
    (b.clear._word_inputs = [] ∧ b.clear._word_window._outputs = [] ∧ b.clear._hidden = []) ∧
    (b.clear._dropout_nodes_after_input_nodes = b._dropout_nodes_after_input_nodes ∧
      b.clear._dropout_nodes_after_hidden_nodes = b._dropout_nodes_after_hidden_nodes ∧
      b.clear._avg_pooling = b._avg_pooling ∧ b.clear._max_pooling = b._max_pooling ∧
      b.clear._min_pooling = b._min_pooling ∧ b.clear._concat = b._concat ∧
      b.clear._neural_output = b._neural_output) ∧
    ∃ b1, b.createNodes (n : Int) = .done b1 ∧
      (b1.clear._word_inputs.length = 0 ∧
        b1.clear._word_window._outputs.length = 0 ∧
        b1.clear._hidden.length = 0 ∧
        b1.clear._dropout_nodes_after_input_nodes.length = n ∧
        b1.clear._dropout_nodes_after_hidden_nodes.length = n ∧
        (0 < n → b1.clear._word_inputs.length
          ≠ b1.clear._dropout_nodes_after_input_nodes.length)) ∧
      (∃ b2, b1.clear.initial pcg model opts = .done b2 ∧
        b2._word_inputs = [] ∧ b2._hidden = [] ∧
        b2._dropout_nodes_after_input_nodes.length = n ∧
        b2._dropout_nodes_after_hidden_nodes.length = n) := by
  have hC := resizeAll_capacity n b
  refine ⟨⟨rfl, rfl, rfl⟩, ⟨rfl, rfl, rfl, rfl, rfl, rfl, rfl⟩, b.resizeAll n,
    createNodes_natCast n b, ⟨rfl, rfl, rfl, hC.dropout_input, hC.dropout_hidden, ?_⟩, ?_⟩
  · intro hn h
    have h2 : (b.resizeAll n).clear._dropout_nodes_after_input_nodes.length = n :=
      hC.dropout_input
    rw [h2] at h
    have h3 : (b.resizeAll n).clear._word_inputs.length = 0 := rfl
    omega
  · refine ⟨_, initial_eq pcg model opts (b.resizeAll n).clear rfl, rfl, rfl, ?_, ?_⟩
    · simpa [GraphBuilder.clear] using hC.dropout_input
    · simpa [GraphBuilder.clear] using hC.dropout_hidden

/-- Instance of C10 with four slots and the demonstration parameters. -/
theorem clear_frame_witness :
    0 < 4 ∧
    ∃ b1, (GraphBuilder.fresh : GraphBuilder Int Int Int).createNodes ((4 : Nat) : Int)
        = .done b1 ∧
      b1.clear._word_inputs.length ≠ b1.clear._dropout_nodes_after_input_nodes.length := by
  obtain ⟨b1, h, hs, _⟩ :=
    (clear_frame 4 0 demoModel demoOpts (GraphBuilder.fresh : GraphBuilder Int Int Int)).2.2
  exact ⟨by decide, b1, h, hs.2.2.2.2.2 (by decide)⟩

end SetupClaims

end N3LDG
namespace N3LDG

/-! ## What a forward pass preserves -/

section Preservation

variable {V L U R : Type}

theorem forall_mem_written {α : Type} {P : α → Prop} (mk : V → α) (vs : List V) (xs : List α)
    (n : Nat) (hmk : ∀ v, P (mk v)) (hx : ∀ x ∈ xs, P x) :
    ∀ x ∈ vs.map mk ++ xs.drop n, P x := by
  intro x hx2
  rcases List.mem_append.1 hx2 with h | h
  · obtain ⟨v, _, rfl⟩ := List.mem_map.1 h
    exact hmk v
  · exact hx x (List.mem_of_mem_drop h)

theorem length_written {α : Type} (mk : V → α) (vs : List V) (xs : List α) (n c : Nat)
    (hv : vs.length = n) (hx : xs.length = c) (hn : n ≤ c) :
    (vs.map mk ++ xs.drop n).length = c := by
  simp only [List.length_append, List.length_map, List.length_drop, hv, hx]
  omega

/-- A forward pass leaves every binding in place. -/
theorem bound_forwardResult (eng : Engine V L U R) (model : ModelParams L U) (opts : HyperParams)
    (feature : Feature) (train : Bool) (rng : R) (b : GraphBuilder V L U) (p : Nat)
    (hB : Bound b p model opts) :
    Bound (forwardResult eng model opts feature train rng b) p model opts where
  graph := hB.graph
  word_inputs := forall_mem_written _ _ _ _ (fun _ => ⟨rfl, rfl⟩) hB.word_inputs
  dropout_input := forall_mem_written _ _ _ _ (fun _ => ⟨rfl, rfl⟩) hB.dropout_input
  window := hB.window
  hidden := forall_mem_written _ _ _ _ (fun _ => ⟨rfl, rfl⟩) hB.hidden
  dropout_hidden := forall_mem_written _ _ _ _ (fun _ => ⟨rfl, rfl⟩) hB.dropout_hidden
  avg := hB.avg
  max := hB.max
  min := hB.min
  concat := hB.concat
  output := hB.output

/-- A forward pass leaves the capacity in place. -/
theorem capacity_forwardResult (eng : Engine V L U R) (model : ModelParams L U)
    (opts : HyperParams) (feature : Feature) (train : Bool) (rng : R) (b : GraphBuilder V L U)
    (c : Nat) (hC : Capacity b c) (hlen : specLen feature ≤ c) :
    Capacity (forwardResult eng model opts feature train rng b) c where
  word_inputs := length_written _ _ _ _ c (length_specLookups eng model opts feature)
    hC.word_inputs hlen
  dropout_input := length_written _ _ _ _ c (length_specEmbedded eng model opts feature _ _)
    hC.dropout_input hlen
  window := length_written _ _ _ _ c (length_specContext eng model opts feature _ _)
    hC.window hlen
  hidden := length_written _ _ _ _ c (length_specProjected eng model opts feature _ _)
    hC.hidden hlen
  dropout_hidden := length_written _ _ _ _ c (length_specHidden eng model opts feature _ _)
    hC.dropout_hidden hlen
  avg := hC.avg
  max := hC.max
  min := hC.min

/-- Being bound does not depend on the node outputs. -/
theorem bound_eraseOutputs (b : GraphBuilder V L U) (p : Nat) (model : ModelParams L U)
    (opts : HyperParams) : Bound b.eraseOutputs p model opts ↔ Bound b p model opts := by
  constructor
  · intro h
    exact
      { graph := h.graph
        word_inputs := fun nd hnd => h.word_inputs { nd with val := none }
          (List.mem_map_of_mem (fun nd : LookupNode V L => { nd with val := none }) hnd)
        dropout_input := fun nd hnd => h.dropout_input { nd with val := none }
          (List.mem_map_of_mem (fun nd : DropoutNode V => { nd with val := none }) hnd)
        window := h.window
        hidden := fun nd hnd => h.hidden { nd with val := none }
          (List.mem_map_of_mem (fun nd : UniNode V U => { nd with val := none }) hnd)
        dropout_hidden := fun nd hnd => h.dropout_hidden { nd with val := none }
          (List.mem_map_of_mem (fun nd : DropoutNode V => { nd with val := none }) hnd)
        avg := h.avg
        max := h.max
        min := h.min
        concat := h.concat
        output := h.output }
  · intro h
    refine
      { graph := h.graph
        word_inputs := ?_
        dropout_input := ?_
        window := h.window
        hidden := ?_
        dropout_hidden := ?_
        avg := h.avg
        max := h.max
        min := h.min
        concat := h.concat
        output := h.output }
    · intro nd hnd
      obtain ⟨y, hy, rfl⟩ := List.mem_map.1 hnd
      exact h.word_inputs y hy
    · intro nd hnd
      obtain ⟨y, hy, rfl⟩ := List.mem_map.1 hnd
      exact h.dropout_input y hy
    · intro nd hnd
      obtain ⟨y, hy, rfl⟩ := List.mem_map.1 hnd
      exact h.hidden y hy
    · intro nd hnd
      obtain ⟨y, hy, rfl⟩ := List.mem_map.1 hnd
      exact h.dropout_hidden y hy

/-- Capacity does not depend on the node outputs. -/
theorem capacity_eraseOutputs (b : GraphBuilder V L U) (c : Nat) :
    Capacity b.eraseOutputs c ↔ Capacity b c := by
  constructor
  · intro h
    exact
      { word_inputs := by simpa [GraphBuilder.eraseOutputs] using h.word_inputs
        dropout_input := by simpa [GraphBuilder.eraseOutputs] using h.dropout_input
        window := by simpa [GraphBuilder.eraseOutputs] using h.window
        hidden := by simpa [GraphBuilder.eraseOutputs] using h.hidden
        dropout_hidden := by simpa [GraphBuilder.eraseOutputs] using h.dropout_hidden
        avg := h.avg
        max := h.max
        min := h.min }
  · intro h
    exact
      { word_inputs := by simpa [GraphBuilder.eraseOutputs] using h.word_inputs
        dropout_input := by simpa [GraphBuilder.eraseOutputs] using h.dropout_input
        window := by simpa [GraphBuilder.eraseOutputs] using h.window
        hidden := by simpa [GraphBuilder.eraseOutputs] using h.hidden
        dropout_hidden := by simpa [GraphBuilder.eraseOutputs] using h.dropout_hidden
        avg := h.avg
        max := h.max
        min := h.min }

/-- With the train flag off, the scores do not depend on the random source. -/
theorem specScores_eval (eng : Engine V L U R) (model : ModelParams L U) (opts : HyperParams)
    (feature : Feature) (r1 r2 : R) :
    specScores eng model opts feature false r1 = specScores eng model opts feature false r2 := by
  simp only [specScores, specPooled, specHidden, specProjected, specContext, specEmbedded,
    dropSeq_eval]

/-- The pass reads the tokens only through the first `specLen` positions. -/
theorem forward_congr_tokens (eng : Engine V L U R) (f1 f2 : Feature) (bTrain : Bool)
    (w : World V L U R) (hl : specLen f1 = specLen f2)
    (ht : ∀ i, i < specLen f1 → f1.m_words[i]? = f2.m_words[i]?) :
    GraphBuilder.forward eng f1 bTrain w = GraphBuilder.forward eng f2 bTrain w := by
  unfold GraphBuilder.forward
  simp only [words_num_eq]
  rw [← hl]
  have hloop : ∀ s, forRange (slotStep (LookupNode.forward eng) f1.m_words) (specLen f1) s =
      forRange (slotStep (LookupNode.forward eng) f2.m_words) (specLen f1) s := by
    intro s
    apply forRange_congr
    intro i hi t
    simp only [slotStep, ht i hi]
  simp only [hloop]

end Preservation

end N3LDG
namespace N3LDG

/-! ## Loops that run past the end of a collection -/

section Unchecked

variable {V L U R : Type}

/-- A slot loop whose nodes never report a failure either hits undefined
behaviour or returns a collection of the size it started with. -/
theorem forRange_slotStep_cases {α β G : Type} (fwd : G → α → β → Outcome (α × G))
    (hf : ∀ g a x, fwd g a x ≠ .failure) (ins : List β) (xs : List α) (g : G) :
    ∀ k : Nat, forRange (slotStep fwd ins) k (xs, g) = .undefined ∨
      ∃ ys g2, forRange (slotStep fwd ins) k (xs, g) = .done (ys, g2) ∧ ys.length = xs.length
  | 0 => Or.inr ⟨xs, g, rfl, rfl⟩
  | k + 1 => by
    simp only [forRange]
    rcases forRange_slotStep_cases fwd hf ins xs g k with h | ⟨ys, g2, h, hl⟩
    · left
      rw [h]
      rfl
    · rw [h, Outcome.bind_done]
      unfold slotStep
      cases h1 : ys[k]? with
      | none => left; rfl
      | some a =>
        cases h2 : ins[k]? with
        | none => left; rfl
        | some x =>
          simp only
          cases h3 : fwd g2 a x with
          | failure => exact absurd h3 (hf g2 a x)
          | undefined => left; rfl
          | done r =>
            right
            exact ⟨ys.set k r.1, r.2, rfl, by rw [List.length_set, hl]⟩

/-- A slot loop that runs past the end of its collection is undefined
behaviour. -/
theorem forRange_slotStep_short {α β G : Type} (fwd : G → α → β → Outcome (α × G))
    (hf : ∀ g a x, fwd g a x ≠ .failure) (ins : List β) (xs : List α) (g : G) (n : Nat)
    (h : xs.length < n) : forRange (slotStep fwd ins) n (xs, g) = .undefined := by
  obtain ⟨k, rfl⟩ : ∃ k, n = k + 1 := ⟨n - 1, by omega⟩
  simp only [forRange]
  rcases forRange_slotStep_cases fwd hf ins xs g k with h1 | ⟨ys, g2, h1, hl⟩
  · rw [h1]
    rfl
  · rw [h1, Outcome.bind_done]
    unfold slotStep
    have hk : ys[k]? = none := List.getElem?_eq_none (by omega)
    simp only [hk]

theorem lookup_forward_ne_failure (eng : Engine V L U R) (g : Graph R) (nd : LookupNode V L)
    (tok : Token) : nd.forward eng g tok ≠ .failure := by
  unfold LookupNode.forward
  split <;> simp

/-- Without a graph pointer, or with fewer Lookup slots than the active
length, `forward` is undefined behaviour. -/
theorem forward_undefined (eng : Engine V L U R) (feature : Feature) (bTrain : Bool)
    (w : World V L U R)
    (h : w.gb._pcg = none ∨ w.gb._word_inputs.length < specLen feature) :
    GraphBuilder.forward eng feature bTrain w = .undefined := by
  unfold GraphBuilder.forward
  rcases h with h | h
  · simp only [h]
  · cases hp : w.gb._pcg with
    | none => simp only
    | some p =>
      simp only
      cases hg : w.heap[p]? with
      | none => simp only
      | some g0 =>
        simp only [words_num_eq]
        rw [forRange_slotStep_short _ (lookup_forward_ne_failure eng) _ _ _ _ h]
        rfl

/-- The demonstration builder is bound and has the capacity it was created
with. -/
theorem demoBuilder_spec (n : Nat) :
    Bound (demoBuilder n) 0 demoModel demoOpts ∧ Capacity (demoBuilder n) n := by
  obtain ⟨b2, h, hB, hC⟩ := setup_of_createNodes 0 n demoModel demoOpts
    (GraphBuilder.fresh : GraphBuilder Int Int Int)
  unfold demoBuilder
  rw [h]
  exact ⟨hB, hC⟩

theorem getElem?_written {α : Type} (mk : V → α) (vs : List V) (xs : List α) (n i : Nat)
    (hv : vs.length = n) (hi : n ≤ i) : (vs.map mk ++ xs.drop n)[i]? = xs[i]? := by
  rw [List.getElem?_append_right (by simp; omega), List.getElem?_drop]
  congr 1
  simp only [List.length_map]
  omega

end Unchecked

end N3LDG
namespace N3LDG

/-! ## The forward pass -/

section ForwardClaims

variable {V L U R : Type}

/-- C1: on a bound builder whose capacity `c` is at least
`len = min(|feature.m_words|, 1024)`, `forward(feature, bTrain)` returns; it
sets the train flag of the execution context to `bTrain`; and it leaves in
`_neural_output` exactly `Linear(Concat(Avg(H), Max(H), Min(H)))`, the
poolings in the order avg, max, min, where `H` (of length `len`) is the
post-hidden dropout (rate 0.5) of the hidden projections of the window
contexts `c`, and `c` is the window over the post-embedding dropout (rate 0.2)
of the lookups of the first `len` tokens, both dropout stages under flag
`bTrain`, every stage over exactly the first `len` positions in order.  The
slots of every collection are as `forwardResult` lists them. -/
theorem forward_computes_scores (eng : Engine V L U R) (model : ModelParams L U)
    (opts : HyperParams) (feature : Feature) (bTrain : Bool) (heap : List (Graph R))
    (b : GraphBuilder V L U) (p : Nat) (g0 : Graph R) (c : Nat) (hB : Bound b p model opts)
    (hC : Capacity b c) (hlen : min feature.m_words.length max_sentence_length ≤ c)
    (hg : heap[p]? = some g0) :
    ∃ w, GraphBuilder.forward eng feature bTrain ⟨heap, b⟩ = .done w ∧
      (∃ g, w.heap[p]? = some g ∧ g.train = bTrain) ∧
      (let len := min feature.m_words.length max_sentence_length
       let x := dropSeq eng (0.2 : Rat) opts.wordDim bTrain
         ((feature.m_words.take len).map (eng.lookup model.words opts.wordDim)) g0.rng
       let ctx := (List.range len).map (eng.window opts.wordDim opts.wordContext x.1)
       let hid := dropSeq eng (0.5 : Rat) opts.hiddenSize bTrain
         (ctx.map (eng.uni model.hidden_linear opts.hiddenSize)) x.2
       hid.1.length = len ∧
       w.gb._neural_output.val =
         some (eng.linear model.olayer_linear opts.labelSize
           (eng.concat (opts.hiddenSize * 3) (eng.avgPool opts.hiddenSize hid.1)
             (eng.maxPool opts.hiddenSize hid.1) (eng.minPool opts.hiddenSize hid.1)))) ∧
      w.gb = forwardResult eng model opts feature bTrain g0.rng b := by
  have hp : p < heap.length := by
    rcases Nat.lt_or_ge p heap.length with h | h
    · exact h
    · rw [List.getElem?_eq_none h] at hg
      cases hg
  have hx : (specEmbedded eng model opts feature bTrain g0.rng).1.length
      = min feature.m_words.length max_sentence_length :=
    length_specEmbedded eng model opts feature bTrain g0.rng
  refine ⟨_, forward_of_bound eng model opts feature bTrain heap b p g0 c hB hC hlen hg,
    ⟨⟨bTrain, (specHidden eng model opts feature bTrain g0.rng).2⟩,
      List.getElem?_set_self hp, rfl⟩, ?_, rfl⟩
  have hH := length_specHidden eng model opts feature bTrain g0.rng
  simp only [forwardResult, specScores, specPooled]
  simp only [specHidden, specProjected, specContext, hx] at hH ⊢
  exact ⟨hH, rfl⟩

/-- Instance of C1: a four-token sentence on a builder of capacity six, in
training mode; the demonstration engine gives the score 151767. -/
theorem forward_computes_scores_witness :
    (Bound (demoBuilder 6) 0 demoModel demoOpts ∧ Capacity (demoBuilder 6) 6) ∧
    min (Feature.mk [5, 6, 7, 8]).m_words.length max_sentence_length ≤ 6 ∧
    ∃ w, GraphBuilder.forward demoEngine ⟨[5, 6, 7, 8]⟩ true ⟨[⟨false, 3⟩], demoBuilder 6⟩
        = .done w ∧
      (∃ g, w.heap[0]? = some g ∧ g.train = true) ∧
      w.gb._neural_output.val = some 151767 := by
  refine ⟨demoBuilder_spec 6, by decide, ?_⟩
  obtain ⟨w, hw, hg, hout, _⟩ :=
    forward_computes_scores demoEngine demoModel demoOpts ⟨[5, 6, 7, 8]⟩ true [⟨false, 3⟩]
      (demoBuilder 6) 0 ⟨false, 3⟩ 6 (demoBuilder_spec 6).1 (demoBuilder_spec 6).2 (by decide)
      rfl
  exact ⟨w, hw, hg, hout.2.trans (by decide)⟩

/-- C2: on a bound builder of capacity at least 1024 and a Feature `f` with
at least 1024 tokens, `forward` on `f` with any extra tokens appended returns
the same world (same output, same slot contents, same execution context) as
`forward` on `f`, for the same train flag and the same random source.  The
active length of the pass is 1024: Lookup slot `i` holds the embedding of
token `i` for every `i < 1024`, the slots of every collection at positions
1024 and beyond are left as they were, and the output is the one computed
from `f.m_words.take 1024` alone, over 1024 positions. -/
theorem forward_ignores_tokens_past_cap (eng : Engine V L U R) (model : ModelParams L U)
    (opts : HyperParams) (f : Feature) (extra : List Token) (bTrain : Bool)
    (heap : List (Graph R)) (b : GraphBuilder V L U) (p : Nat) (g0 : Graph R) (c : Nat)
    (hB : Bound b p model opts) (hC : Capacity b c) (hc : 1024 ≤ c)
    (hf : 1024 ≤ f.m_words.length) (hg : heap[p]? = some g0) :
    ∃ w, GraphBuilder.forward eng f bTrain ⟨heap, b⟩ = .done w ∧
      GraphBuilder.forward eng ⟨f.m_words ++ extra⟩ bTrain ⟨heap, b⟩ = .done w ∧
      (∀ i, i < 1024 → ∃ tok, f.m_words[i]? = some tok ∧
        w.gb._word_inputs[i]? =
          some ⟨some model.words, some opts.wordDim,
            some (eng.lookup model.words opts.wordDim tok)⟩) ∧
      (∀ i, 1024 ≤ i →
        w.gb._word_inputs[i]? = b._word_inputs[i]? ∧
        w.gb._dropout_nodes_after_input_nodes[i]? = b._dropout_nodes_after_input_nodes[i]? ∧
        w.gb._word_window._outputs[i]? = b._word_window._outputs[i]? ∧
        w.gb._hidden[i]? = b._hidden[i]? ∧
        w.gb._dropout_nodes_after_hidden_nodes[i]?
          = b._dropout_nodes_after_hidden_nodes[i]?) ∧
      (let x := dropSeq eng (0.2 : Rat) opts.wordDim bTrain
         ((f.m_words.take 1024).map (eng.lookup model.words opts.wordDim)) g0.rng
       let ctx := (List.range 1024).map (eng.window opts.wordDim opts.wordContext x.1)
       let hid := dropSeq eng (0.5 : Rat) opts.hiddenSize bTrain
         (ctx.map (eng.uni model.hidden_linear opts.hiddenSize)) x.2
       hid.1.length = 1024 ∧
       w.gb._neural_output.val =
         some (eng.linear model.olayer_linear opts.labelSize
           (eng.concat (opts.hiddenSize * 3) (eng.avgPool opts.hiddenSize hid.1)
             (eng.maxPool opts.hiddenSize hid.1) (eng.minPool opts.hiddenSize hid.1)))) := by
  have h1 : specLen f = 1024 := by
    unfold specLen max_sentence_length
    omega
  have h2 : specLen ⟨f.m_words ++ extra⟩ = 1024 := by
    unfold specLen max_sentence_length
    simp only [List.length_append]
    omega
  have hfw := forward_of_bound eng model opts f bTrain heap b p g0 c hB hC (by omega) hg
  have hx : (specEmbedded eng model opts f bTrain g0.rng).1.length = 1024 :=
    (length_specEmbedded eng model opts f bTrain g0.rng).trans h1
  have hH := (length_specHidden eng model opts f bTrain g0.rng).trans h1
  refine ⟨_, hfw, ?_, fun i hi => ?_, fun i hi => ⟨?_, ?_, ?_, ?_, ?_⟩, ?_⟩
  · rw [forward_congr_tokens eng ⟨f.m_words ++ extra⟩ f bTrain ⟨heap, b⟩ (by rw [h1, h2])
      (fun i hi => List.getElem?_append_left (by omega))]
    exact hfw
  · have hi2 : i < f.m_words.length := by omega
    refine ⟨f.m_words[i], List.getElem?_eq_getElem hi2, ?_⟩
    simp only [forwardResult, specLookups, h1]
    rw [List.getElem?_append_left (by simp; omega), List.getElem?_map, List.getElem?_map,
      List.getElem?_take_of_lt hi, List.getElem?_eq_getElem hi2]
    rfl
  · exact getElem?_written _ _ _ _ i (length_specLookups eng model opts f) (by omega)
  · exact getElem?_written _ _ _ _ i (length_specEmbedded eng model opts f _ _) (by omega)
  · exact getElem?_written _ _ _ _ i (length_specContext eng model opts f _ _) (by omega)
  · exact getElem?_written _ _ _ _ i (length_specProjected eng model opts f _ _) (by omega)
  · exact getElem?_written _ _ _ _ i (length_specHidden eng model opts f _ _) (by omega)
  · simp only [forwardResult, specScores, specPooled]
    simp only [specHidden, specProjected, specContext, hx] at hH ⊢
    simp only [specEmbedded, specLookups, h1] at hH ⊢
    exact ⟨hH, trivial⟩

/-- Instance of C2: the 1024 distinct tokens 0, 1, ..., 1023 followed by three
more, on a builder of capacity 1030.  Lookup slot 1023 holds the embedding of
token 1023 and slot 1024 has never been written. -/
theorem forward_ignores_tokens_past_cap_witness :
    1024 ≤ (Feature.mk (List.range 1024)).m_words.length ∧
    ∃ w, GraphBuilder.forward demoEngine ⟨List.range 1024⟩ true
        ⟨[⟨false, 3⟩], demoBuilder 1030⟩ = .done w ∧
      GraphBuilder.forward demoEngine ⟨(Feature.mk (List.range 1024)).m_words ++ [1, 2, 3]⟩
        true ⟨[⟨false, 3⟩], demoBuilder 1030⟩ = .done w ∧
      w.gb._word_inputs[1023]? = some ⟨some 1, some 50, some 51151⟩ ∧
      w.gb._word_inputs[1024]? = some ⟨some 1, some 50, none⟩ := by
  have hl : 1024 ≤ (Feature.mk (List.range 1024)).m_words.length := by
    dsimp only
    rw [List.length_range]
  obtain ⟨w, hw1, hw2, hlow, hhigh, _⟩ :=
    forward_ignores_tokens_past_cap demoEngine demoModel demoOpts ⟨List.range 1024⟩
      [1, 2, 3] true [⟨false, 3⟩] (demoBuilder 1030) 0 ⟨false, 3⟩ 1030 (demoBuilder_spec 1030).1
      (demoBuilder_spec 1030).2 (by decide) hl rfl
  refine ⟨hl, w, hw1, hw2, ?_, ?_⟩
  · obtain ⟨tok, ht, hs⟩ := hlow 1023 (by decide)
    dsimp only at ht
    rw [List.getElem?_range (by decide)] at ht
    cases ht
    exact hs
  · rw [(hhigh 1024 (Nat.le_refl _)).1, demoBuilder_word_inputs,
      List.getElem?_replicate_of_lt (by decide)]

/-- C3: take two builder states that agree on capacity and on every binding
(they are equal once the node outputs are forgotten), each with its own
execution context, and a Feature whose active length fits the capacity.  With
the train flag off, `forward` returns on both with the same final output; and
a second `forward` on the same Feature, run on the state the first call left
behind, yields that output again. -/
theorem forward_eval_deterministic (eng : Engine V L U R) (model : ModelParams L U)
    (opts : HyperParams) (f : Feature) (heap1 heap2 : List (Graph R))
    (b1 b2 : GraphBuilder V L U) (p : Nat) (g1 g2 : Graph R) (c : Nat)
    (hB : Bound b1 p model opts) (hC : Capacity b1 c)
    (he : b1.eraseOutputs = b2.eraseOutputs) (hlen : specLen f ≤ c)
    (hg1 : heap1[p]? = some g1) (hg2 : heap2[p]? = some g2) :
    ∃ w1 w2 out,
      GraphBuilder.forward eng f false ⟨heap1, b1⟩ = .done w1 ∧
      GraphBuilder.forward eng f false ⟨heap2, b2⟩ = .done w2 ∧
      w1.gb._neural_output.val = some out ∧
      w2.gb._neural_output.val = some out ∧
      ∃ w3, GraphBuilder.forward eng f false w1 = .done w3 ∧
        w3.gb._neural_output.val = some out := by
  have hB2 : Bound b2 p model opts :=
    (bound_eraseOutputs b2 p model opts).1 (he ▸ (bound_eraseOutputs b1 p model opts).2 hB)
  have hC2 : Capacity b2 c :=
    (capacity_eraseOutputs b2 c).1 (he ▸ (capacity_eraseOutputs b1 c).2 hC)
  have hp : p < heap1.length := by
    rcases Nat.lt_or_ge p heap1.length with h | h
    · exact h
    · rw [List.getElem?_eq_none h] at hg1
      cases hg1
  refine ⟨_, _, specScores eng model opts f false g1.rng,
    forward_of_bound eng model opts f false heap1 b1 p g1 c hB hC hlen hg1,
    forward_of_bound eng model opts f false heap2 b2 p g2 c hB2 hC2 hlen hg2, rfl, ?_, _,
    forward_of_bound eng model opts f false _ _ p _ c
      (bound_forwardResult eng model opts f false g1.rng b1 p hB)
      (capacity_forwardResult eng model opts f false g1.rng b1 c hC hlen) hlen
      (List.getElem?_set_self hp), ?_⟩
  · exact congrArg some (specScores_eval eng model opts f g2.rng g1.rng)
  · exact congrArg some (specScores_eval eng model opts f _ g1.rng)

/-- Instance of C3: ten token ids with wordDim 50, hiddenSize 100, labelSize
5 and window width 2; the second state carries the outputs of an earlier
pass. -/
theorem forward_eval_deterministic_witness :
    (demoBuilder 10).eraseOutputs
      = (forwardResult demoEngine demoModel demoOpts ⟨[9, 9, 9]⟩ true 4
          (demoBuilder 10)).eraseOutputs ∧
    specLen ⟨[3, 1, 4, 1, 5, 9, 2, 6, 5, 3]⟩ ≤ 10 ∧
    ∃ w1 w2 out,
      GraphBuilder.forward demoEngine ⟨[3, 1, 4, 1, 5, 9, 2, 6, 5, 3]⟩ false
        ⟨[⟨false, 0⟩], demoBuilder 10⟩ = .done w1 ∧
      GraphBuilder.forward demoEngine ⟨[3, 1, 4, 1, 5, 9, 2, 6, 5, 3]⟩ false
        ⟨[⟨true, 7⟩], forwardResult demoEngine demoModel demoOpts ⟨[9, 9, 9]⟩ true 4
          (demoBuilder 10)⟩ = .done w2 ∧
      w1.gb._neural_output.val = some out ∧
      w2.gb._neural_output.val = some out ∧
      ∃ w3, GraphBuilder.forward demoEngine ⟨[3, 1, 4, 1, 5, 9, 2, 6, 5, 3]⟩ false w1
          = .done w3 ∧
        w3.gb._neural_output.val = some out :=
  ⟨rfl, by decide,
    forward_eval_deterministic demoEngine demoModel demoOpts
      ⟨[3, 1, 4, 1, 5, 9, 2, 6, 5, 3]⟩ [⟨false, 0⟩] [⟨true, 7⟩] (demoBuilder 10)
      (forwardResult demoEngine demoModel demoOpts ⟨[9, 9, 9]⟩ true 4 (demoBuilder 10)) 0
      ⟨false, 0⟩ ⟨true, 7⟩ 10 (demoBuilder_spec 10).1 (demoBuilder_spec 10).2 rfl
      (by decide) rfl rfl⟩

end ForwardClaims

end N3LDG
namespace N3LDG

/-! ## Capacity and the forward pass -/

section CapacityClaims

variable {V L U R : Type}

/-- C4: for `n1 < n2 ≤ 1024` and a Feature of length `n2`, a builder taken
through `createNodes(n1)`, `initial`, `createNodes(n2)`, `initial` and a fresh
builder taken through `createNodes(n2)`, `initial` both run `forward` to the
end and leave the same output and the same execution context, for the same
parameters, Feature, train flag and random source; when the first builder
starts out freshly constructed too, the two passes leave the same world. -/
theorem grown_builder_matches_direct (eng : Engine V L U R) (n1 n2 pcg : Nat)
    (model : ModelParams L U) (opts : HyperParams) (f : Feature) (bTrain : Bool)
    (heap : List (Graph R)) (g0 : Graph R) (b0 : GraphBuilder V L U) (h12 : n1 < n2)
    (_h2 : n2 ≤ 1024) (hf : f.m_words.length = n2) (hg : heap[pcg]? = some g0) :
    ∃ b1 bA bB wA wB out,
      (b0.createNodes (n1 : Int)).bind (fun b => b.initial pcg model opts) = .done b1 ∧
      (b1.createNodes (n2 : Int)).bind (fun b => b.initial pcg model opts) = .done bA ∧
      ((GraphBuilder.fresh : GraphBuilder V L U).createNodes (n2 : Int)).bind
        (fun b => b.initial pcg model opts) = .done bB ∧
      GraphBuilder.forward eng f bTrain ⟨heap, bA⟩ = .done wA ∧
      GraphBuilder.forward eng f bTrain ⟨heap, bB⟩ = .done wB ∧
      wA.gb._neural_output.val = some out ∧
      wB.gb._neural_output.val = some out ∧
      wA.heap = wB.heap ∧
      (b0 = GraphBuilder.fresh → wA = wB) := by
  obtain ⟨b1, hb1, _, _⟩ := setup_of_createNodes pcg n1 model opts b0
  obtain ⟨bA, hbA, hBA, hCA⟩ := setup_of_createNodes pcg n2 model opts b1
  obtain ⟨bB, hbB, hBB, hCB⟩ := setup_of_createNodes pcg n2 model opts
    (GraphBuilder.fresh : GraphBuilder V L U)
  have hlen : specLen f ≤ n2 := by
    unfold specLen
    omega
  refine ⟨b1, bA, bB, _, _, specScores eng model opts f bTrain g0.rng, hb1, hbA, hbB,
    forward_of_bound eng model opts f bTrain heap bA pcg g0 n2 hBA hCA hlen hg,
    forward_of_bound eng model opts f bTrain heap bB pcg g0 n2 hBB hCB hlen hg, rfl, rfl, rfl,
    fun h0 => ?_⟩
  subst h0
  have hAB : bA = bB := by
    rw [createNodes_natCast, Outcome.bind_done] at hb1 hbA hbB
    have := (hbA.symm.trans
      (grow_fresh n1 n2 pcg model opts (Nat.le_of_lt h12) b1 hb1)).trans hbB
    exact Outcome.done.inj this
  rw [hAB]

/-- Instance of C4: growing from two to five slots, five tokens. -/
theorem grown_builder_matches_direct_witness :
    2 < 5 ∧ 5 ≤ 1024 ∧ (Feature.mk [4, 8, 15, 16, 23]).m_words.length = 5 ∧
    ∃ b1 bA bB wA wB out,
      ((GraphBuilder.fresh : GraphBuilder Int Int Int).createNodes ((2 : Nat) : Int)).bind
        (fun b => b.initial 0 demoModel demoOpts) = .done b1 ∧
      (b1.createNodes ((5 : Nat) : Int)).bind (fun b => b.initial 0 demoModel demoOpts)
        = .done bA ∧
      ((GraphBuilder.fresh : GraphBuilder Int Int Int).createNodes ((5 : Nat) : Int)).bind
        (fun b => b.initial 0 demoModel demoOpts) = .done bB ∧
      GraphBuilder.forward demoEngine ⟨[4, 8, 15, 16, 23]⟩ true ⟨[⟨false, 1⟩], bA⟩
        = .done wA ∧
      GraphBuilder.forward demoEngine ⟨[4, 8, 15, 16, 23]⟩ true ⟨[⟨false, 1⟩], bB⟩
        = .done wB ∧
      wA.gb._neural_output.val = some out ∧
      wB.gb._neural_output.val = some out ∧
      wA.heap = wB.heap ∧
      ((GraphBuilder.fresh : GraphBuilder Int Int Int) = GraphBuilder.fresh → wA = wB) :=
  ⟨by decide, by decide, rfl,
    grown_builder_matches_direct demoEngine 2 5 0 demoModel demoOpts ⟨[4, 8, 15, 16, 23]⟩ true
      [⟨false, 1⟩] ⟨false, 1⟩ GraphBuilder.fresh (by decide) (by decide) rfl rfl⟩

/-- C8: after `createNodes(n)` and `initial` with
`n ≥ min(|feature.m_words|, 1024)`, `forward` runs to the end: every checked
access (`feature.m_words[i]`, `_word_inputs[i]`,
`_dropout_nodes_after_input_nodes[i]`, `_word_window._outputs[i]`,
`_hidden[i]`, `_dropout_nodes_after_hidden_nodes[i]`, each request to
`getPNodes`, the window and pooling calls) is in range, so no out-of-range
branch is taken; and the slots at positions `min(|feature.m_words|, 1024)`
and beyond are left exactly as they were. -/
theorem forward_indices_in_range (eng : Engine V L U R) (n pcg : Nat) (model : ModelParams L U)
    (opts : HyperParams) (feature : Feature) (bTrain : Bool) (heap : List (Graph R))
    (g0 : Graph R) (b0 : GraphBuilder V L U)
    (hn : min feature.m_words.length max_sentence_length ≤ n) (hg : heap[pcg]? = some g0) :
    ∃ b w,
      (b0.createNodes (n : Int)).bind (fun b1 => b1.initial pcg model opts) = .done b ∧
      GraphBuilder.forward eng feature bTrain ⟨heap, b⟩ = .done w ∧
      ∀ i, min feature.m_words.length max_sentence_length ≤ i →
        w.gb._word_inputs[i]? = b._word_inputs[i]? ∧
        w.gb._dropout_nodes_after_input_nodes[i]? = b._dropout_nodes_after_input_nodes[i]? ∧
        w.gb._word_window._outputs[i]? = b._word_window._outputs[i]? ∧
        w.gb._hidden[i]? = b._hidden[i]? ∧
        w.gb._dropout_nodes_after_hidden_nodes[i]?
          = b._dropout_nodes_after_hidden_nodes[i]? := by
  obtain ⟨b, hb, hB, hC⟩ := setup_of_createNodes pcg n model opts b0
  refine ⟨b, _, hb, forward_of_bound eng model opts feature bTrain heap b pcg g0 n hB hC hn hg,
    fun i hi => ⟨?_, ?_, ?_, ?_, ?_⟩⟩
  · exact getElem?_written _ _ _ _ i (length_specLookups eng model opts feature) hi
  · exact getElem?_written _ _ _ _ i (length_specEmbedded eng model opts feature _ _) hi
  · exact getElem?_written _ _ _ _ i (length_specContext eng model opts feature _ _) hi
  · exact getElem?_written _ _ _ _ i (length_specProjected eng model opts feature _ _) hi
  · exact getElem?_written _ _ _ _ i (length_specHidden eng model opts feature _ _) hi

/-- Instance of C8: three tokens on a builder of capacity five. -/
theorem forward_indices_in_range_witness :
    min (Feature.mk [5, 6, 7]).m_words.length max_sentence_length ≤ 5 ∧
    ∃ b w,
      ((GraphBuilder.fresh : GraphBuilder Int Int Int).createNodes ((5 : Nat) : Int)).bind
        (fun b1 => b1.initial 0 demoModel demoOpts) = .done b ∧
      GraphBuilder.forward demoEngine ⟨[5, 6, 7]⟩ true ⟨[⟨false, 2⟩], b⟩ = .done w ∧
      ∀ i, min (Feature.mk [5, 6, 7]).m_words.length max_sentence_length ≤ i →
        w.gb._word_inputs[i]? = b._word_inputs[i]? ∧
        w.gb._dropout_nodes_after_input_nodes[i]? = b._dropout_nodes_after_input_nodes[i]? ∧
        w.gb._word_window._outputs[i]? = b._word_window._outputs[i]? ∧
        w.gb._hidden[i]? = b._hidden[i]? ∧
        w.gb._dropout_nodes_after_hidden_nodes[i]?
          = b._dropout_nodes_after_hidden_nodes[i]? :=
  ⟨by decide,
    forward_indices_in_range demoEngine 5 0 demoModel demoOpts ⟨[5, 6, 7]⟩ true [⟨false, 2⟩]
      ⟨false, 2⟩ GraphBuilder.fresh (by decide) rfl⟩

/-- C9 as stated fails: a builder bound at capacity 1 is given a two-token
sentence.  The pass reports no failure to its caller: the lookup loop indexes
`_word_inputs[1]` unchecked, which is undefined behaviour. -/
theorem forward_short_capacity_reports_nothing :
    (demoBuilder 1)._word_inputs.length < min (Feature.mk [5, 6]).m_words.length 1024 ∧
    GraphBuilder.forward demoEngine ⟨[5, 6]⟩ false ⟨[⟨false, 0⟩], demoBuilder 1⟩
      = .undefined ∧
    ¬ (GraphBuilder.forward demoEngine ⟨[5, 6]⟩ false ⟨[⟨false, 0⟩], demoBuilder 1⟩
      = .failure) := by
  decide

/-- C9, amended: for a non-empty Feature, `forward` on a builder whose graph
pointer was never set (as on a freshly constructed builder) or whose Lookup
collection has fewer slots than `min(|feature.m_words|, 1024)` performs no
precondition check and reports no failure to its caller: it executes the
unchecked dereference of `_pcg` or the unchecked `_word_inputs[i]` at a
position past the end, which is undefined behaviour.  Whether the call then
crashes or returns, and with what output, is fixed by nothing in the code. -/
theorem forward_unchecked_precondition (eng : Engine V L U R) (feature : Feature)
    (bTrain : Bool) (w : World V L U R) (_hne : feature.m_words ≠ [])
    (h : w.gb._pcg = none ∨
      w.gb._word_inputs.length < min feature.m_words.length max_sentence_length) :
    GraphBuilder.forward eng feature bTrain w ≠ .failure ∧
    GraphBuilder.forward eng feature bTrain w = .undefined := by
  have hu := forward_undefined eng feature bTrain w h
  rw [hu]
  exact ⟨(fun h => by cases h), rfl⟩

/-- Instance of C9 (amended): one token on a builder taken through
`createNodes(4)`, `initial` and `clear()`, which has no Lookup slot left. -/
theorem forward_unchecked_precondition_witness :
    (Feature.mk [5]).m_words ≠ [] ∧
    (demoBuilder 4).clear._word_inputs.length
      < min (Feature.mk [5]).m_words.length max_sentence_length ∧
    GraphBuilder.forward demoEngine ⟨[5]⟩ false ⟨[⟨false, 0⟩], (demoBuilder 4).clear⟩
      ≠ .failure ∧
    GraphBuilder.forward demoEngine ⟨[5]⟩ false ⟨[⟨false, 0⟩], (demoBuilder 4).clear⟩
      = .undefined :=
  ⟨by decide, by decide,
    forward_unchecked_precondition demoEngine ⟨[5]⟩ false
      ⟨[⟨false, 0⟩], (demoBuilder 4).clear⟩ (by decide) (Or.inr (by decide))⟩

end CapacityClaims

end N3LDG
